import Mathlib

/-! Reader-interface generator for schema tables.

A shallow embedding of `store/generators/golang/interface_generator/Table.go`.

The generator keeps two text buffers and an import set, renders a handful of
`text/template` templates into the buffers and finally flushes import block,
definitions and auxiliary interfaces to an `io.Writer`.

Go values that live outside the file are taken as parameters, gathered in `Env`:
the helpers of package `utils`, the symbol resolver `corev1Native.NewIDReader`,
the Unicode tables that `strings.Title` consults for non-ASCII runes, the
rendering of the import block, and the possibility that `Template.Execute`
stops with an error after having written only part of its output.

Every Go method `func (t *T) M(...) (err error)` becomes a function returning the
new generator state together with `Option Error` (`none` is Go's `nil`).
-/

set_option maxRecDepth 100000

namespace InterfaceGenerator

/-! ## Data model -/

/-- A Go `error` value, identified by its message. -/
abbrev Error := String

/-- The reader `corev1.DocumentationReader`: a short and a long text. -/
structure Documentation where
  Short : String
  Long : String
  deriving DecidableEq, Repr

/-- The reader `corev1.FieldReader`. `Type_` is the Go method `Type()`.
A nil documentation reader is `none`. -/
structure Field where
  Name : String
  Type_ : String
  Items : String
  Documentation : Option InterfaceGenerator.Documentation
  deriving DecidableEq, Repr

/-- The reader returned by `TableReader.Metadata()`. -/
structure Metadata where
  Name : String
  Application : String
  Documentation : Option InterfaceGenerator.Documentation
  deriving DecidableEq, Repr

/-- The reader `corev1.TableReader`. `Fields` lists, for `i = 0 .. Fields().Len()-1`,
what `Fields().Get(i)` returns: a field or an error. -/
structure Table where
  Metadata : InterfaceGenerator.Metadata
  Fields : List (Except Error Field)

/-- The resolved reference `*corev1Native.IDReader`: `Kind` is `Kind()`, `ID` is
`ID()` and `ParentID` is `Parent().ID()`. -/
structure IDReader where
  Kind : String
  ID : String
  ParentID : String
  deriving DecidableEq, Repr

/-- Everything the generator calls that is defined outside `Table.go`. -/
structure Env where
  /-- The helper `utils.TableName`. -/
  TableName : Table → String
  /-- The helper `utils.TableNameFromID`. -/
  TableNameFromID : IDReader → String
  /-- The helper `utils.CommentGolang`. -/
  CommentGolang : String → String
  /-- The resolver `corev1Native.NewIDReader(token, false)`; `none` is a nil pointer. -/
  NewIDReader : String → Option IDReader
  /-- The predicate `unicode.IsLetter`, consulted for runes above `0x7F` only. -/
  IsLetter : Char → Bool
  /-- The predicate `unicode.IsDigit`, consulted for runes above `0x7F` only. -/
  IsDigit : Char → Bool
  /-- The predicate `unicode.IsSpace`, consulted for runes above `0x7F` only. -/
  IsSpace : Char → Bool
  /-- The mapping `unicode.ToTitle`, consulted for runes above `0x7F` only. -/
  ToTitle : Char → Char
  /-- Whether `Template.Execute` of the template with the given name, whose complete
  output would be the given text, stops early: `some (n, e)` means that `n`
  characters were written before execution stopped with error `e`. -/
  templateFault : String → String → Option (Nat × Error)
  /-- The text that `golang.Imports.Write` produces for the registered imports. -/
  importsText : List String → String

/-- The generator state `TableReaderGenerator` (logger, function map and the unused
`packagesBuffer` left out). -/
structure TableReaderGenerator where
  imports : List String
  table : Table
  interfacePackage : String
  interfacePackageShort : String
  definitionsBuffer : String
  functionsBuffer : String
  hybridsInterfacePackage : String

/-- An `io.Writer` sink: the text accepted so far and, when `room` is `some n`, the
number of characters it still accepts before its writes fail. -/
structure Writer where
  written : String
  room : Option Nat
  deriving DecidableEq, Repr

/-! ## `strings.Title` -/

/-- Go's `strings.isSeparator`. -/
def isSeparator (env : Env) (r : Char) : Bool :=
  if r.toNat ≤ 0x7F then
    if '0'.toNat ≤ r.toNat ∧ r.toNat ≤ '9'.toNat then false
    else if 'a'.toNat ≤ r.toNat ∧ r.toNat ≤ 'z'.toNat then false
    else if 'A'.toNat ≤ r.toNat ∧ r.toNat ≤ 'Z'.toNat then false
    else if r = '_' then false
    else true
  else if env.IsLetter r || env.IsDigit r then false
  else env.IsSpace r

/-- Go's `unicode.ToTitle`: ASCII lower-case letters are upper-cased, other ASCII
runes are unchanged, and the remaining runes go through the title-case table. -/
def ToTitle (env : Env) (r : Char) : Char :=
  if r.toNat ≤ 0x7F then
    if 'a'.toNat ≤ r.toNat ∧ r.toNat ≤ 'z'.toNat then Char.ofNat (r.toNat - 32) else r
  else env.ToTitle r

/-- The mapping closure of `strings.Title`, run over the runes with its `prev` state. -/
def titleFrom (env : Env) : Char → List Char → List Char
  | _, [] => []
  | prev, r :: rs =>
    (if isSeparator env prev then ToTitle env r else r) :: titleFrom env r rs

/-- Go's `strings.Title`, the template function `Capitalize`. -/
def Title (env : Env) (s : String) : String :=
  ⟨titleFrom env ' ' s.data⟩

/-- The template function `Capitalize` of the function map. -/
def Capitalize (env : Env) (s : String) : String :=
  Title env s

/-! ## Template functions and execution -/

/-- The template function `GoDoc` of the function map. -/
def GoDoc (env : Env) (name : String) (d : Option Documentation) : String :=
  match d with
  | some d =>
    if d.Short = "" ∧ d.Long = "" then "//" ++ Title env name ++ " ..."
    else if d.Short ≠ "" ∧ d.Long ≠ "" then
      Title env name ++ " " ++ d.Short ++ "\n" ++ d.Long
    else if d.Short ≠ "" then env.CommentGolang (Title env name ++ " " ++ d.Short)
    else if d.Long ≠ "" then env.CommentGolang (Title env name ++ " " ++ d.Long)
    else "//" ++ Title env name ++ " ..."
  | none => "//" ++ Title env name ++ " ..."

/-- The call `tmpl.Execute(buffer, data)`: `full` is the complete rendering of the
template on its data. Without a fault the buffer receives all of it; with a fault
it receives a leading part and the error is returned. -/
def Execute (env : Env) (name : String) (buf : String) (full : String) :
    String × Option Error :=
  match env.templateFault name full with
  | none => (buf ++ full, none)
  | some (n, e) => (buf ++ ⟨full.data.take n⟩, some e)

/-- Modelled from the spec: `golang.Imports.AddImport`, which is not in the source
tree. The import set is a deduplicated collection of module identifiers with a
stable order. -/
def AddImport (imports : List String) (p : String) : List String :=
  if p ∈ imports then imports else imports ++ [p]

/-! ## The sink and `bytes.Buffer.WriteTo` -/

/-- The call `wr.Write(p)`: the new sink, the number of characters accepted and the
error. -/
def Writer.Write (w : Writer) (p : String) : Writer × Nat × Option Error :=
  match w.room with
  | none => ({ w with written := w.written ++ p }, p.length, none)
  | some n =>
    if p.length ≤ n then
      ({ written := w.written ++ p, room := some (n - p.length) }, p.length, none)
    else
      ({ written := w.written ++ ⟨p.data.take n⟩, room := some 0 }, n, some "short write")

/-- Go's `bytes.Buffer.WriteTo`: the remaining buffer, the sink and the error. A
buffer that was written completely is reset. -/
def BufferWriteTo (buf : String) (w : Writer) : String × Writer × Option Error :=
  if 0 < buf.length then
    match w.Write buf with
    | (w1, m, some e) => (⟨buf.data.drop m⟩, w1, some e)
    | (w1, m, none) =>
      if m ≠ buf.length then (⟨buf.data.drop m⟩, w1, some "short write")
      else ("", w1, none)
  else ("", w, none)

/-- Modelled from the spec: `golang.Imports.Write`, which is not in the source tree.
It writes the import block for the registered imports to the sink. -/
def ImportsWrite (env : Env) (imports : List String) (w : Writer) :
    Writer × Option Error :=
  match w.Write (env.importsText imports) with
  | (w1, _, e) => (w1, e)

/-! ## The generator -/

/-- The constructor `NewTableReaderGenerator`. -/
def NewTableReaderGenerator (table : Table) (ip : String) : TableReaderGenerator :=
  { imports := []
    table := table
    interfacePackage := ip
    interfacePackageShort := ⟨(ip.data.reverse.takeWhile (fun c => c ≠ '/')).reverse⟩
    definitionsBuffer := ""
    functionsBuffer := ""
    hybridsInterfacePackage := "github.com/nebtex/hybrids/golang/hybrids" }

/-- The complete rendering of the template of `StartInterface`. -/
def startInterfaceText (env : Env) (table : Table) : String :=
  "\n" ++ GoDoc env (env.TableName table ++ "Reader") table.Metadata.Documentation
    ++ "\ntype " ++ env.TableName table ++ "Reader interface \x7b\n"

/-- The method `StartInterface`. -/
def StartInterface (env : Env) (t : TableReaderGenerator) :
    TableReaderGenerator × Option Error :=
  match Execute env "TableReaderGenerator" t.definitionsBuffer
      (startInterfaceText env t.table) with
  | (buf, err) => ({ t with definitionsBuffer := buf }, err)

/-- The method `EndInterface`: a write to a `bytes.Buffer`, which returns no error. -/
def EndInterface (t : TableReaderGenerator) : TableReaderGenerator × Option Error :=
  ({ t with definitionsBuffer := t.definitionsBuffer ++ ("\n" ++ "\x7d\n") }, none)

/-- The complete rendering of the template of `StringAccessor`. -/
def stringAccessorText (env : Env) (f : Field) : String :=
  "\n    " ++ GoDoc env f.Name f.Documentation ++ "\n    "
    ++ Capitalize env f.Name ++ "() string\n"

/-- The method `StringAccessor`. -/
def StringAccessor (env : Env) (t : TableReaderGenerator) (f : Field) :
    TableReaderGenerator × Option Error :=
  match Execute env "StringAccessor" t.definitionsBuffer (stringAccessorText env f) with
  | (buf, err) => ({ t with definitionsBuffer := buf }, err)

/-- The complete rendering of the template of `VectorStringAccessor`. -/
def vectorStringAccessorText (env : Env) (f : Field) : String :=
  "\n    " ++ GoDoc env f.Name f.Documentation ++ "\n    "
    ++ Capitalize env f.Name ++ "() hybrids.VectorStringReader\n"

/-- The method `VectorStringAccessor`: the import is registered first. -/
def VectorStringAccessor (env : Env) (t : TableReaderGenerator) (f : Field) :
    TableReaderGenerator × Option Error :=
  match Execute env "StringAccessor" t.definitionsBuffer
      (vectorStringAccessorText env f) with
  | (buf, err) =>
    ({ t with imports := AddImport t.imports t.hybridsInterfacePackage,
              definitionsBuffer := buf }, err)

/-- The complete rendering of the template of `VectorTableAccessor`, whose data
entry `TypeTableName` is `"Vector" + tableName`. -/
def vectorTableAccessorText (env : Env) (f : Field) (tableName : String) : String :=
  "\n    " ++ GoDoc env f.Name f.Documentation ++ "\n    "
    ++ Capitalize env f.Name ++ "() " ++ ("Vector" ++ tableName) ++ "Reader\n"

/-- The method `VectorTableAccessor`; the template does not use the field number. -/
def VectorTableAccessor (env : Env) (t : TableReaderGenerator) (f : Field) (_fn : Nat)
    (tableName : String) : TableReaderGenerator × Option Error :=
  match Execute env "StringAccessor" t.definitionsBuffer
      (vectorTableAccessorText env f tableName) with
  | (buf, err) => ({ t with definitionsBuffer := buf }, err)

/-- The complete rendering of the template of `TableAccessor`. -/
def tableAccessorText (env : Env) (f : Field) (tableName : String) : String :=
  "\n    " ++ GoDoc env f.Name f.Documentation ++ "\n    "
    ++ Capitalize env f.Name ++ "() (" ++ tableName ++ "Reader, error)\n"

/-- The method `TableAccessor`. -/
def TableAccessor (env : Env) (t : TableReaderGenerator) (f : Field)
    (tableName : String) : TableReaderGenerator × Option Error :=
  match Execute env "StringAccessor" t.definitionsBuffer
      (tableAccessorText env f tableName) with
  | (buf, err) => ({ t with definitionsBuffer := buf }, err)

/-- The complete rendering of the template of `EnumerationAccessor`. -/
def enumerationAccessorText (env : Env) (f : Field) (enumName : String) : String :=
  "\n    " ++ GoDoc env f.Name f.Documentation ++ "\n    "
    ++ Capitalize env f.Name ++ "() " ++ enumName ++ "\n"

/-- The method `EnumerationAccessor`. -/
def EnumerationAccessor (env : Env) (t : TableReaderGenerator) (f : Field)
    (enumName : String) : TableReaderGenerator × Option Error :=
  match Execute env "TableReaderGenerator::Interface::EnumerationAccessor"
      t.definitionsBuffer (enumerationAccessorText env f enumName) with
  | (buf, err) => ({ t with definitionsBuffer := buf }, err)

/-- The complete rendering of the template of `CreateVector` for a table name. -/
def createVectorText (tableName : String) : String :=
  "\n//Vector" ++ tableName ++ "Reader ...\ntype Vector" ++ tableName
    ++ "Reader interface \x7b\n\n    // Returns the current size of this vector\n    Len() int\n\n    //Get the item in the position i, if i < Len(),\n    //if item does not exist should return the default value for the underlying data type\n    //when i > Len() should return an VectorInvalidIndexError\n    Get(i int) (item "
    ++ tableName ++ "Reader, err error)\n\x7d\n"

/-- The method `CreateVector`, which renders into the functions buffer. -/
def CreateVector (env : Env) (t : TableReaderGenerator) :
    TableReaderGenerator × Option Error :=
  match Execute env "TableReaderGenerator::GenerateVector" t.functionsBuffer
      (createVectorText (env.TableName t.table)) with
  | (buf, err) => ({ t with functionsBuffer := buf }, err)

/-- One iteration of the loop of `CreateAccessors`, for index `i` and the result `r`
of `Fields().Get(i)`. -/
def accessorStep (env : Env) (t : TableReaderGenerator) (i : Nat)
    (r : Except Error Field) : TableReaderGenerator × Option Error :=
  match r with
  | .error e => (t, some e)
  | .ok field =>
    let fieldNumber := i % 65536
    if field.Type_ = "String" then StringAccessor env t field
    else if field.Type_ = "Vector" then
      if field.Items = "String" then VectorStringAccessor env t field
      else
        match env.NewIDReader (t.table.Metadata.Application ++ "/" ++ field.Items) with
        | some pid =>
          if pid.Kind = "Table" then
            VectorTableAccessor env t field fieldNumber (env.TableNameFromID pid)
          else (t, none)
        | none => (t, none)
    else
      match env.NewIDReader (t.table.Metadata.Application ++ "/" ++ field.Type_) with
      | some pid =>
        match (if pid.Kind = "Table" then TableAccessor env t field pid.ID
               else (t, none)) with
        | (t1, some e) => (t1, some e)
        | (t1, none) =>
          if pid.Kind = "EnumerationGroup" then
            EnumerationAccessor env t1 field pid.ParentID
          else (t1, none)
      | none => (t, none)

/-- The loop of `CreateAccessors` from index `i` over the remaining results of
`Fields().Get`. -/
def CreateAccessorsFrom (env : Env) :
    Nat → List (Except Error Field) → TableReaderGenerator →
      TableReaderGenerator × Option Error
  | _, [], t => (t, none)
  | i, r :: rs, t =>
    match accessorStep env t i r with
    | (t1, some e) => (t1, some e)
    | (t1, none) => CreateAccessorsFrom env (i + 1) rs t1

/-- The method `CreateAccessors`. -/
def CreateAccessors (env : Env) (t : TableReaderGenerator) :
    TableReaderGenerator × Option Error :=
  CreateAccessorsFrom env 0 t.table.Fields t

/-- The method `FlushBuffers`: imports, then definitions, then functions. -/
def FlushBuffers (env : Env) (t : TableReaderGenerator) (wr : Writer) :
    (TableReaderGenerator × Writer) × Option Error :=
  match ImportsWrite env t.imports wr with
  | (w1, some e) => ((t, w1), some e)
  | (w1, none) =>
    match BufferWriteTo t.definitionsBuffer w1 with
    | (d, w2, some e) => (({ t with definitionsBuffer := d }, w2), some e)
    | (d, w2, none) =>
      match BufferWriteTo t.functionsBuffer w2 with
      | (f, w3, some e) =>
        (({ t with definitionsBuffer := d, functionsBuffer := f }, w3), some e)
      | (f, w3, none) =>
        (({ t with definitionsBuffer := d, functionsBuffer := f }, w3), none)

/-- The method `Generate`. -/
def Generate (env : Env) (t : TableReaderGenerator) (wr : Writer) :
    (TableReaderGenerator × Writer) × Option Error :=
  match StartInterface env t with
  | (t1, some e) => ((t1, wr), some e)
  | (t1, none) =>
    match CreateAccessors env t1 with
    | (t2, some e) => ((t2, wr), some e)
    | (t2, none) =>
      match CreateVector env t2 with
      | (t3, some e) => ((t3, wr), some e)
      | (t3, none) =>
        match EndInterface t3 with
        | (t4, some e) => ((t4, wr), some e)
        | (t4, none) => FlushBuffers env t4 wr

/-! ## Properties used in the statements -/

/-- The template engine never stops early. -/
def FaultFree (env : Env) : Prop :=
  ∀ name full, env.templateFault name full = none

/-- The text of a name with its first rune title-cased and every other rune left as
it is: the spec's "capitalized field name with no other transformation". -/
def firstRuneTitled (env : Env) (s : String) : String :=
  match s.data with
  | [] => ""
  | c :: cs => ⟨ToTitle env c :: cs⟩

/-- The generator state with its table reference replaced. -/
def withTable (t : TableReaderGenerator) (tbl : Table) : TableReaderGenerator :=
  { t with table := tbl }

/-- A field that produces no accessor for application `app`: a type-reference token
that resolves to nil or to a kind other than `Table` and `EnumerationGroup`, or a
vector whose item token is not `String` and resolves to nil or to a kind other than
`Table`. -/
def Unproducible (env : Env) (app : String) (f : Field) : Prop :=
  (f.Type_ ≠ "String" ∧ f.Type_ ≠ "Vector" ∧
      (env.NewIDReader (app ++ "/" ++ f.Type_) = none ∨
        ∃ pid, env.NewIDReader (app ++ "/" ++ f.Type_) = some pid ∧
          pid.Kind ≠ "Table" ∧ pid.Kind ≠ "EnumerationGroup"))
  ∨ (f.Type_ = "Vector" ∧ f.Items ≠ "String" ∧
      (env.NewIDReader (app ++ "/" ++ f.Items) = none ∨
        ∃ pid, env.NewIDReader (app ++ "/" ++ f.Items) = some pid ∧ pid.Kind ≠ "Table"))

/-- A field whose resolver call fails: the token of its type, or of its items when it
is a vector of something other than `String`, resolves to nil. -/
def ResolverFails (env : Env) (app : String) (f : Field) : Prop :=
  (f.Type_ ≠ "String" ∧ f.Type_ ≠ "Vector" ∧
      env.NewIDReader (app ++ "/" ++ f.Type_) = none)
  ∨ (f.Type_ = "Vector" ∧ f.Items ≠ "String" ∧
      env.NewIDReader (app ++ "/" ++ f.Items) = none)

/-- The template that one loop iteration renders for a field of application `app`:
its name, its complete rendering and whether the shared vector module is imported;
`none` when the field produces no accessor. -/
def fieldTemplate (env : Env) (app : String) (f : Field) : Option (String × String × Bool) :=
  if f.Type_ = "String" then some ("StringAccessor", stringAccessorText env f, false)
  else if f.Type_ = "Vector" then
    if f.Items = "String" then
      some ("StringAccessor", vectorStringAccessorText env f, true)
    else
      match env.NewIDReader (app ++ "/" ++ f.Items) with
      | some pid =>
        if pid.Kind = "Table" then
          some ("StringAccessor",
            vectorTableAccessorText env f (env.TableNameFromID pid), false)
        else none
      | none => none
  else
    match env.NewIDReader (app ++ "/" ++ f.Type_) with
    | some pid =>
      if pid.Kind = "Table" then
        some ("StringAccessor", tableAccessorText env f pid.ID, false)
      else if pid.Kind = "EnumerationGroup" then
        some ("TableReaderGenerator::Interface::EnumerationAccessor",
          enumerationAccessorText env f pid.ParentID, false)
      else none
    | none => none

/-- The effect of rendering one template into the definitions buffer. -/
def renderInto (env : Env) (t : TableReaderGenerator) (tpl : String × String × Bool) :
    TableReaderGenerator × Option Error :=
  ({ t with
      imports := if tpl.2.2 then AddImport t.imports t.hybridsInterfacePackage
                 else t.imports,
      definitionsBuffer := (Execute env tpl.1 t.definitionsBuffer tpl.2.1).1 },
    (Execute env tpl.1 t.definitionsBuffer tpl.2.1).2)

/-- Whether some readable field of the list is a vector of strings. -/
def hasVectorString (rs : List (Except Error Field)) : Prop :=
  ∃ f, Except.ok f ∈ rs ∧ f.Type_ = "Vector" ∧ f.Items = "String"

/-- The steps of `Generate` that come before `FlushBuffers`, with its early returns:
`StartInterface`, `CreateAccessors`, `CreateVector`, `EndInterface`. -/
def assemble (env : Env) (t : TableReaderGenerator) :
    TableReaderGenerator × Option Error :=
  match StartInterface env t with
  | (t1, some e) => (t1, some e)
  | (t1, none) =>
    match CreateAccessors env t1 with
    | (t2, some e) => (t2, some e)
    | (t2, none) =>
      match CreateVector env t2 with
      | (t3, some e) => (t3, some e)
      | (t3, none) => EndInterface t3

/-! ## Sample environments and tables -/

/-- The part of an identifier after its last slash. -/
def lastSegment (s : String) : String :=
  ⟨(s.data.reverse.takeWhile (fun c => c ≠ '/')).reverse⟩

/-- A sample environment for application `store`: the resolver knows the table
`store/Color` and answers with the bare identifier `Color`; the template engine
never fails. -/
def storeEnv : Env :=
  { TableName := fun t => t.Metadata.Name
    TableNameFromID := fun pid => lastSegment pid.ID
    CommentGolang := fun s => "//" ++ s
    NewIDReader := fun tok =>
      if tok = "store/Color" then some ⟨"Table", "Color", ""⟩ else none
    IsLetter := fun _ => false
    IsDigit := fun _ => false
    IsSpace := fun _ => false
    ToTitle := fun c => c
    templateFault := fun _ _ => none
    importsText := fun l => String.join (l.map (fun p => "import \"" ++ p ++ "\"\n")) }

/-- The sample environment with a template engine that fails on the vector wrapper
after twelve characters. -/
def faultyEnv : Env :=
  { storeEnv with
    templateFault := fun name _ =>
      if name = "TableReaderGenerator::GenerateVector" then some (12, "render failure")
      else none }

/-- The table `Item` of application `store` with fields `SKU : String` and
`Condition : Color`. -/
def itemTable : Table :=
  { Metadata := ⟨"Item", "store", none⟩
    Fields := [.ok ⟨"SKU", "String", "", none⟩, .ok ⟨"Condition", "Color", "", none⟩] }

/-- A table whose second field cannot be read. -/
def brokenTable : Table :=
  { Metadata := ⟨"Item", "store", none⟩
    Fields := [.ok ⟨"SKU", "String", "", none⟩, .error "field unreadable",
               .ok ⟨"Tags", "Vector", "String", none⟩] }

/-- A table with a field whose type token the resolver does not know. -/
def danglingTable : Table :=
  { Metadata := ⟨"Item", "store", none⟩
    Fields := [.ok ⟨"SKU", "String", "", none⟩, .ok ⟨"Owner", "Person", "", none⟩,
               .ok ⟨"Tags", "Vector", "String", none⟩] }

/-- The table `danglingTable` without its unresolved field. -/
def danglingTableWithout : Table :=
  { Metadata := ⟨"Item", "store", none⟩
    Fields := [.ok ⟨"SKU", "String", "", none⟩, .ok ⟨"Tags", "Vector", "String", none⟩] }

/-- The text of the two interfaces for the table `Item` with the fields
`SKU : String` and `Condition : Color`, when `Color` is a table. -/
def itemReaderText : String :=
  "\n//ItemReader ...\ntype ItemReader interface \x7b\n"
    ++ "\n    //SKU ...\n    SKU() string\n"
    ++ "\n    //Condition ...\n    Condition() (ColorReader, error)\n"
    ++ "\n\x7d\n"
    ++ "\n//VectorItemReader ...\ntype VectorItemReader interface \x7b\n"
    ++ "\n    // Returns the current size of this vector\n    Len() int\n"
    ++ "\n    //Get the item in the position i, if i < Len(),"
    ++ "\n    //if item does not exist should return the default value for the underlying data type"
    ++ "\n    //when i > Len() should return an VectorInvalidIndexError"
    ++ "\n    Get(i int) (item ItemReader, err error)\n\x7d\n"

/-- A sink that accepts every write. -/
def openSink : Writer :=
  { written := "", room := none }

/-- The name of the vector-wrapper interface that the `CreateVector` template
declares for a table name. -/
def vectorReaderName (tableName : String) : String :=
  "Vector" ++ tableName ++ "Reader"

/-- The sample environment with a resolver that also knows the enumeration group
`store/Tint`, whose parent enumeration is `Shade`. -/
def catalogEnv : Env :=
  { storeEnv with
    NewIDReader := fun tok =>
      if tok = "store/Color" then some ⟨"Table", "Color", ""⟩
      else if tok = "store/Tint" then some ⟨"EnumerationGroup", "Tint", "Shade"⟩
      else none }

/-- The table `Catalog` of application `store`, whose field `Palette` is a vector of
the table `Color`. -/
def catalogTable : Table :=
  { Metadata := ⟨"Catalog", "store", some ⟨"short text", ""⟩⟩
    Fields := [.ok ⟨"Palette", "Vector", "Color", none⟩] }

/-- The table `Color` of application `store`. -/
def colorTable : Table :=
  { Metadata := ⟨"Color", "store", none⟩
    Fields := [.ok ⟨"Name", "String", "", none⟩, .ok ⟨"Code", "String", "", none⟩] }

/-- The texts of a list, one after the other. -/
def joinTexts : List String → String
  | [] => ""
  | s :: ss => s ++ joinTexts ss

/-- The accessor text of the result of `Fields().Get(i)` for application `app`: the
complete rendering of the template that the loop selects for the field, and the
empty text when the field produces no accessor. -/
def accessorText (env : Env) (app : String) (r : Except Error Field) : String :=
  match r with
  | .error _ => ""
  | .ok f =>
    match fieldTemplate env app f with
    | none => ""
    | some tpl => tpl.2.1

/-- The generator state with its import set replaced. -/
def withImports (t : TableReaderGenerator) (l : List String) : TableReaderGenerator :=
  { t with imports := l }

/-- The generator state without what a pass accumulates: import set and both buffers
emptied. -/
def cleared (t : TableReaderGenerator) : TableReaderGenerator :=
  { t with imports := [], definitionsBuffer := "", functionsBuffer := "" }

/-- Modelled from the spec: the helper `utils.TableName`, which is not in the source
tree. By the naming contract the primary interface is `<TableName>Reader` and the
vector wrapper `Vector<TableName>Reader`, named after the table's `Name`. -/
def specTableName (t : Table) : String :=
  t.Metadata.Name

/-- Modelled from the spec: the helper `utils.TableNameFromID`, which is not in the
source tree. The target table name of a resolved reference is the name of the table
it resolves to, which the reference carries as its identifier. -/
def specTableNameFromID (pid : IDReader) : String :=
  pid.ID

/-- Modelled from the spec: the lookup of the symbol resolver in the schema registry,
which is not in the source tree. A type token `application/name` resolves to the
table of that application and name, and table names are unique within an
application. -/
def resolveTable (tables : List Table) (token : String) : Option Table :=
  tables.find? (fun tb => decide (tb.Metadata.Application ++ "/" ++ tb.Metadata.Name = token))

/-- Modelled from the spec: the environment of a schema registry that holds the given
tables. A token that names one of them resolves to a reference of kind `Table` whose
identifier is the table's name; any other token is left to the resolver of `base`.
The two naming helpers are the ones modelled above; everything else is `base`. -/
def registryEnv (base : Env) (tables : List Table) : Env :=
  { base with
    TableName := specTableName
    TableNameFromID := specTableNameFromID
    NewIDReader := fun token =>
      match resolveTable tables token with
      | some tb => some ⟨"Table", tb.Metadata.Name, ""⟩
      | none => base.NewIDReader token }

/-- A table with three vector-of-string fields. -/
def tagsTable : Table :=
  { Metadata := ⟨"Item", "store", none⟩
    Fields := [.ok ⟨"Tags", "Vector", "String", none⟩, .ok ⟨"SKU", "String", "", none⟩,
               .ok ⟨"Labels", "Vector", "String", none⟩,
               .ok ⟨"Notes", "Vector", "String", none⟩] }

/-! ## Basic facts about template execution and `strings.Title` -/

theorem Execute_of_no_fault {env : Env} {name buf full : String}
    (h : env.templateFault name full = none) :
    Execute env name buf full = (buf ++ full, none) := by
  simp [Execute, h]

theorem Execute_ok {env : Env} {name buf full b : String}
    (h : Execute env name buf full = (b, none)) : b = buf ++ full := by
  unfold Execute at h
  split at h
  · simp only [Prod.mk.injEq, and_true] at h
    exact h.symm
  · simp at h

theorem isSeparator_space (env : Env) : isSeparator env ' ' = true := by
  rfl

theorem titleFrom_of_no_separator (env : Env) :
    ∀ (cs : List Char) (prev : Char), isSeparator env prev = false →
      (∀ c ∈ cs, isSeparator env c = false) → titleFrom env prev cs = cs := by
  intro cs
  induction cs with
  | nil => intro _ _ _; rfl
  | cons c cs ih =>
    intro prev hp hall
    have hc : isSeparator env c = false := hall c (List.mem_cons_self c cs)
    have hrest : ∀ d ∈ cs, isSeparator env d = false :=
      fun d hd => hall d (List.mem_cons_of_mem c hd)
    simp [titleFrom, hp, ih c hc hrest]

theorem Title_of_no_separator (env : Env) (s : String)
    (h : ∀ c ∈ s.data, isSeparator env c = false) :
    Title env s = firstRuneTitled env s := by
  unfold Title firstRuneTitled
  cases hs : s.data with
  | nil => rfl
  | cons c cs =>
    rw [hs] at h
    have hc : isSeparator env c = false := h c (List.mem_cons_self c cs)
    have hrest : ∀ d ∈ cs, isSeparator env d = false :=
      fun d hd => h d (List.mem_cons_of_mem c hd)
    simp [titleFrom, isSeparator_space, titleFrom_of_no_separator env cs c hc hrest]

/-! ## Emitters under a template engine that does not fail -/

theorem StringAccessor_of_no_fault {env : Env} (hfree : FaultFree env)
    (t : TableReaderGenerator) (f : Field) :
    StringAccessor env t f =
      ({ t with definitionsBuffer := t.definitionsBuffer ++ stringAccessorText env f },
        none) := by
  simp [StringAccessor, Execute_of_no_fault (hfree _ _)]

theorem VectorStringAccessor_of_no_fault {env : Env} (hfree : FaultFree env)
    (t : TableReaderGenerator) (f : Field) :
    VectorStringAccessor env t f =
      ({ t with imports := AddImport t.imports t.hybridsInterfacePackage,
                definitionsBuffer :=
                  t.definitionsBuffer ++ vectorStringAccessorText env f }, none) := by
  simp [VectorStringAccessor, Execute_of_no_fault (hfree _ _)]

theorem VectorTableAccessor_of_no_fault {env : Env} (hfree : FaultFree env)
    (t : TableReaderGenerator) (f : Field) (fn : Nat) (tableName : String) :
    VectorTableAccessor env t f fn tableName =
      ({ t with definitionsBuffer :=
                  t.definitionsBuffer ++ vectorTableAccessorText env f tableName },
        none) := by
  simp [VectorTableAccessor, Execute_of_no_fault (hfree _ _)]

theorem TableAccessor_of_no_fault {env : Env} (hfree : FaultFree env)
    (t : TableReaderGenerator) (f : Field) (tableName : String) :
    TableAccessor env t f tableName =
      ({ t with definitionsBuffer :=
                  t.definitionsBuffer ++ tableAccessorText env f tableName }, none) := by
  simp [TableAccessor, Execute_of_no_fault (hfree _ _)]

theorem EnumerationAccessor_of_no_fault {env : Env} (hfree : FaultFree env)
    (t : TableReaderGenerator) (f : Field) (enumName : String) :
    EnumerationAccessor env t f enumName =
      ({ t with definitionsBuffer :=
                  t.definitionsBuffer ++ enumerationAccessorText env f enumName },
        none) := by
  simp [EnumerationAccessor, Execute_of_no_fault (hfree _ _)]

theorem storeEnv_faultFree : FaultFree storeEnv := by
  intro _ _
  rfl

/-! ## The accessor loop -/

theorem accessorStep_ok (env : Env) (t : TableReaderGenerator) (i : Nat) (f : Field) :
    accessorStep env t i (.ok f) =
      match fieldTemplate env t.table.Metadata.Application f with
      | none => (t, none)
      | some tpl => renderInto env t tpl := by
  unfold accessorStep fieldTemplate
  by_cases h1 : f.Type_ = "String"
  · simp [h1, StringAccessor, renderInto]
  · by_cases h2 : f.Type_ = "Vector"
    · by_cases h3 : f.Items = "String"
      · simp [h2, h3, VectorStringAccessor, renderInto]
      · cases hr : env.NewIDReader (t.table.Metadata.Application ++ "/" ++ f.Items) with
        | none => simp [h2, h3, hr]
        | some pid =>
          by_cases hk : pid.Kind = "Table"
          · simp [h2, h3, hr, hk, VectorTableAccessor, renderInto]
          · simp [h2, h3, hr, hk]
    · cases hr : env.NewIDReader (t.table.Metadata.Application ++ "/" ++ f.Type_) with
      | none => simp [h1, h2, hr]
      | some pid =>
        by_cases hk : pid.Kind = "Table"
        · simp only [h1, h2, hr, hk, if_true, if_false, TableAccessor, renderInto]
          rcases Execute env "StringAccessor" t.definitionsBuffer
            (tableAccessorText env f pid.ID) with ⟨b, _ | e⟩
          · simp
          · simp
        · by_cases hg : pid.Kind = "EnumerationGroup"
          · simp [h1, h2, hr, hk, hg, EnumerationAccessor, renderInto]
          · simp [h1, h2, hr, hk, hg]

theorem accessorStep_index (env : Env) (t : TableReaderGenerator) (i j : Nat)
    (r : Except Error Field) : accessorStep env t i r = accessorStep env t j r := by
  cases r with
  | error e => rfl
  | ok f => rw [accessorStep_ok, accessorStep_ok]

theorem accessorStep_table (env : Env) (t : TableReaderGenerator) (i : Nat)
    (r : Except Error Field) : (accessorStep env t i r).1.table = t.table := by
  cases r with
  | error e => rfl
  | ok f =>
    rw [accessorStep_ok]
    split <;> rfl

theorem accessorStep_functionsBuffer (env : Env) (t : TableReaderGenerator) (i : Nat)
    (r : Except Error Field) :
    (accessorStep env t i r).1.functionsBuffer = t.functionsBuffer := by
  cases r with
  | error e => rfl
  | ok f =>
    rw [accessorStep_ok]
    split <;> rfl

theorem accessorStep_hybrids (env : Env) (t : TableReaderGenerator) (i : Nat)
    (r : Except Error Field) :
    (accessorStep env t i r).1.hybridsInterfacePackage = t.hybridsInterfacePackage := by
  cases r with
  | error e => rfl
  | ok f =>
    rw [accessorStep_ok]
    split <;> rfl

theorem accessorStep_withTable (env : Env) (t : TableReaderGenerator) (tbl : Table)
    (i : Nat) (r : Except Error Field)
    (happ : tbl.Metadata.Application = t.table.Metadata.Application) :
    accessorStep env (withTable t tbl) i r
      = (withTable (accessorStep env t i r).1 tbl, (accessorStep env t i r).2) := by
  cases r with
  | error e => rfl
  | ok f =>
    rw [accessorStep_ok, accessorStep_ok]
    have h : (withTable t tbl).table.Metadata.Application
        = t.table.Metadata.Application := happ
    rw [h]
    split <;> rfl

theorem accessorStep_of_unproducible (env : Env) (t : TableReaderGenerator) (i : Nat)
    (f : Field) (hf : Unproducible env t.table.Metadata.Application f) :
    accessorStep env t i (.ok f) = (t, none) := by
  rw [accessorStep_ok]
  have hnone : fieldTemplate env t.table.Metadata.Application f = none := by
    unfold fieldTemplate
    rcases hf with ⟨h1, h2, h3 | ⟨pid, hp, hk, hg⟩⟩ | ⟨h2, h3, h4 | ⟨pid, hp, hk⟩⟩
    · simp [h1, h2, h3]
    · simp [h1, h2, hp, hk, hg]
    · simp [h2, h3, h4]
    · simp [h2, h3, hp, hk]
  rw [hnone]

theorem CreateAccessorsFrom_index (env : Env) :
    ∀ (rs : List (Except Error Field)) (i j : Nat) (t : TableReaderGenerator),
      CreateAccessorsFrom env i rs t = CreateAccessorsFrom env j rs t := by
  intro rs
  induction rs with
  | nil => intro i j t; rfl
  | cons r rs ih =>
    intro i j t
    simp only [CreateAccessorsFrom]
    rw [accessorStep_index env t i j r]
    rcases accessorStep env t j r with ⟨t1, _ | e⟩
    · exact ih (i + 1) (j + 1) t1
    · rfl

theorem CreateAccessorsFrom_append (env : Env) :
    ∀ (pre rest : List (Except Error Field)) (i : Nat) (t : TableReaderGenerator),
      CreateAccessorsFrom env i (pre ++ rest) t =
        match CreateAccessorsFrom env i pre t with
        | (t1, some e) => (t1, some e)
        | (t1, none) => CreateAccessorsFrom env (i + pre.length) rest t1 := by
  intro pre
  induction pre with
  | nil => intro rest i t; simp [CreateAccessorsFrom]
  | cons r pre ih =>
    intro rest i t
    rw [List.cons_append]
    simp only [CreateAccessorsFrom, List.length_cons]
    rcases accessorStep env t i r with ⟨t1, _ | e⟩
    · simp only
      rw [ih rest (i + 1) t1]
      have hidx : i + 1 + pre.length = i + (pre.length + 1) := by omega
      rw [hidx]
    · rfl

theorem CreateAccessorsFrom_preserves {α : Type} (env : Env)
    (proj : TableReaderGenerator → α)
    (hstep : ∀ t i r, proj (accessorStep env t i r).1 = proj t) :
    ∀ (rs : List (Except Error Field)) (i : Nat) (t : TableReaderGenerator),
      proj (CreateAccessorsFrom env i rs t).1 = proj t := by
  intro rs
  induction rs with
  | nil => intro i t; rfl
  | cons r rs ih =>
    intro i t
    simp only [CreateAccessorsFrom]
    have h := hstep t i r
    generalize accessorStep env t i r = res at h ⊢
    rcases res with ⟨t1, _ | e⟩
    · simp only at h ⊢
      rw [ih (i + 1) t1, h]
    · exact h

theorem CreateAccessorsFrom_table (env : Env) (rs : List (Except Error Field)) (i : Nat)
    (t : TableReaderGenerator) : (CreateAccessorsFrom env i rs t).1.table = t.table :=
  CreateAccessorsFrom_preserves env (fun s => s.table) (accessorStep_table env) rs i t

theorem CreateAccessorsFrom_functionsBuffer (env : Env) (rs : List (Except Error Field))
    (i : Nat) (t : TableReaderGenerator) :
    (CreateAccessorsFrom env i rs t).1.functionsBuffer = t.functionsBuffer :=
  CreateAccessorsFrom_preserves env (fun s => s.functionsBuffer)
    (accessorStep_functionsBuffer env) rs i t

theorem CreateAccessorsFrom_hybrids (env : Env) (rs : List (Except Error Field))
    (i : Nat) (t : TableReaderGenerator) :
    (CreateAccessorsFrom env i rs t).1.hybridsInterfacePackage
      = t.hybridsInterfacePackage :=
  CreateAccessorsFrom_preserves env (fun s => s.hybridsInterfacePackage)
    (accessorStep_hybrids env) rs i t

theorem CreateAccessorsFrom_withTable (env : Env) (tbl : Table) :
    ∀ (rs : List (Except Error Field)) (i : Nat) (t : TableReaderGenerator),
      tbl.Metadata.Application = t.table.Metadata.Application →
      CreateAccessorsFrom env i rs (withTable t tbl)
        = (withTable (CreateAccessorsFrom env i rs t).1 tbl,
            (CreateAccessorsFrom env i rs t).2) := by
  intro rs
  induction rs with
  | nil => intro i t _; rfl
  | cons r rs ih =>
    intro i t happ
    simp only [CreateAccessorsFrom]
    rw [accessorStep_withTable env t tbl i r happ]
    have htab := accessorStep_table env t i r
    generalize accessorStep env t i r = res at htab ⊢
    rcases res with ⟨t1, _ | e⟩
    · simp only at htab ⊢
      exact ih (i + 1) t1 (by rw [htab]; exact happ)
    · rfl

theorem CreateAccessorsFrom_skip (env : Env) (pre post : List (Except Error Field))
    (f : Field) (i : Nat) (t : TableReaderGenerator)
    (hf : Unproducible env t.table.Metadata.Application f) :
    CreateAccessorsFrom env i (pre ++ .ok f :: post) t
      = CreateAccessorsFrom env i (pre ++ post) t := by
  rw [CreateAccessorsFrom_append, CreateAccessorsFrom_append]
  have htab := CreateAccessorsFrom_table env pre i t
  generalize CreateAccessorsFrom env i pre t = res at htab ⊢
  rcases res with ⟨t1, _ | e⟩
  · simp only at htab ⊢
    simp only [CreateAccessorsFrom]
    rw [accessorStep_of_unproducible env t1 (i + pre.length) f (by rw [htab]; exact hf)]
    exact CreateAccessorsFrom_index env post _ _ t1
  · rfl

/-! ## The import set -/

theorem AddImport_idem (l : List String) (p : String) :
    AddImport (AddImport l p) p = AddImport l p := by
  unfold AddImport
  by_cases h : p ∈ l
  · simp [h]
  · simp [h]

theorem AddImport_nil (p : String) : AddImport [] p = [p] := by
  simp [AddImport]

theorem accessorStep_imports (env : Env) (t : TableReaderGenerator) (i : Nat) (f : Field) :
    (accessorStep env t i (.ok f)).1.imports =
      if f.Type_ = "Vector" ∧ f.Items = "String" then
        AddImport t.imports t.hybridsInterfacePackage
      else t.imports := by
  rw [accessorStep_ok]
  unfold fieldTemplate
  by_cases h1 : f.Type_ = "String"
  · have h2 : ¬ f.Type_ = "Vector" := by rw [h1]; decide
    simp [h1, renderInto]
  · by_cases h2 : f.Type_ = "Vector"
    · by_cases h3 : f.Items = "String"
      · simp [h2, h3, renderInto]
      · cases hr : env.NewIDReader (t.table.Metadata.Application ++ "/" ++ f.Items) with
        | none => simp [h2, h3]
        | some pid =>
          by_cases hk : pid.Kind = "Table"
          · simp [h2, h3, hk, renderInto]
          · simp [h2, h3, hk]
    · cases hr : env.NewIDReader (t.table.Metadata.Application ++ "/" ++ f.Type_) with
      | none => simp [h1, h2]
      | some pid =>
        by_cases hk : pid.Kind = "Table"
        · simp [h1, h2, hk, renderInto]
        · by_cases hg : pid.Kind = "EnumerationGroup"
          · simp [h1, h2, hk, hg, renderInto]
          · simp [h1, h2, hk, hg]

theorem CreateAccessorsFrom_imports (env : Env) :
    ∀ (rs : List (Except Error Field)) (i : Nat) (t t' : TableReaderGenerator),
      CreateAccessorsFrom env i rs t = (t', none) →
      (hasVectorString rs → t'.imports = AddImport t.imports t.hybridsInterfacePackage)
      ∧ (¬ hasVectorString rs → t'.imports = t.imports) := by
  intro rs
  induction rs with
  | nil =>
    intro i t t' h
    simp only [CreateAccessorsFrom, Prod.mk.injEq, and_true] at h
    subst h
    exact ⟨fun ⟨f, hm, _⟩ => absurd hm (List.not_mem_nil _), fun _ => rfl⟩
  | cons r rs ih =>
    intro i t t' h
    cases r with
    | error e => simp [CreateAccessorsFrom, accessorStep] at h
    | ok f =>
      simp only [CreateAccessorsFrom] at h
      have himp := accessorStep_imports env t i f
      have hhyb := accessorStep_hybrids env t i (.ok f)
      generalize accessorStep env t i (.ok f) = res at h himp hhyb
      rcases res with ⟨t1, _ | e⟩
      · simp only at h himp hhyb
        obtain ⟨ihyes, ihno⟩ := ih (i + 1) t1 t' h
        by_cases hv : f.Type_ = "Vector" ∧ f.Items = "String"
        · rw [if_pos hv] at himp
          have hhead : hasVectorString (Except.ok f :: rs) :=
            ⟨f, List.mem_cons_self _ _, hv.1, hv.2⟩
          refine ⟨fun _ => ?_, fun hn => absurd hhead hn⟩
          by_cases hrest : hasVectorString rs
          · rw [ihyes hrest, himp, hhyb, AddImport_idem]
          · rw [ihno hrest, himp]
        · rw [if_neg hv] at himp
          have hiff : hasVectorString (Except.ok f :: rs) ↔ hasVectorString rs := by
            constructor
            · rintro ⟨g, hm, hg1, hg2⟩
              rcases List.mem_cons.mp hm with heq | hm
              · cases heq
                exact absurd ⟨hg1, hg2⟩ hv
              · exact ⟨g, hm, hg1, hg2⟩
            · rintro ⟨g, hm, hg1, hg2⟩
              exact ⟨g, List.mem_cons_of_mem _ hm, hg1, hg2⟩
          refine ⟨fun hy => ?_, fun hn => ?_⟩
          · rw [ihyes (hiff.mp hy), himp, hhyb]
          · rw [ihno (fun hy => hn (hiff.mpr hy)), himp]
      · simp at h

theorem CreateAccessorsFrom_imports_any (env : Env) :
    ∀ (rs : List (Except Error Field)) (i : Nat) (t : TableReaderGenerator),
      ((CreateAccessorsFrom env i rs t).1.imports = t.imports
        ∨ (CreateAccessorsFrom env i rs t).1.imports
            = AddImport t.imports t.hybridsInterfacePackage)
      ∧ (¬ hasVectorString rs → (CreateAccessorsFrom env i rs t).1.imports = t.imports) := by
  intro rs
  induction rs with
  | nil => intro i t; exact ⟨Or.inl rfl, fun _ => rfl⟩
  | cons r rs ih =>
    intro i t
    cases r with
    | error e => exact ⟨Or.inl rfl, fun _ => rfl⟩
    | ok f =>
      simp only [CreateAccessorsFrom]
      have himp := accessorStep_imports env t i f
      have hhyb := accessorStep_hybrids env t i (.ok f)
      generalize accessorStep env t i (.ok f) = res at himp hhyb ⊢
      rcases res with ⟨t1, _ | e⟩
      · simp only at himp hhyb ⊢
        obtain ⟨ihor, ihno⟩ := ih (i + 1) t1
        by_cases hv : f.Type_ = "Vector" ∧ f.Items = "String"
        · rw [if_pos hv] at himp
          have hhead : hasVectorString (Except.ok f :: rs) :=
            ⟨f, List.mem_cons_self _ _, hv.1, hv.2⟩
          refine ⟨Or.inr ?_, fun hn => absurd hhead hn⟩
          rcases ihor with h | h
          · rw [h, himp]
          · rw [h, himp, hhyb, AddImport_idem]
        · rw [if_neg hv] at himp
          rw [himp, hhyb] at ihor
          refine ⟨ihor, fun hn => ?_⟩
          have hrest : ¬ hasVectorString rs := fun ⟨g, hm, hg1, hg2⟩ =>
            hn ⟨g, List.mem_cons_of_mem _ hm, hg1, hg2⟩
          rw [ihno hrest, himp]
      · simp only at himp hhyb ⊢
        by_cases hv : f.Type_ = "Vector" ∧ f.Items = "String"
        · rw [if_pos hv] at himp
          have hhead : hasVectorString (Except.ok f :: rs) :=
            ⟨f, List.mem_cons_self _ _, hv.1, hv.2⟩
          exact ⟨Or.inr himp, fun hn => absurd hhead hn⟩
        · rw [if_neg hv] at himp
          exact ⟨Or.inl himp, fun _ => himp⟩

theorem accessorStep_vectorString (env : Env) (s s' : TableReaderGenerator) (i : Nat)
    (f : Field) (h1 : f.Type_ = "Vector") (h2 : f.Items = "String")
    (h : accessorStep env s i (.ok f) = (s', none)) :
    s'.definitionsBuffer = s.definitionsBuffer ++ vectorStringAccessorText env f := by
  rw [accessorStep_ok] at h
  have htpl : fieldTemplate env s.table.Metadata.Application f
      = some ("StringAccessor", vectorStringAccessorText env f, true) := by
    simp [fieldTemplate, h1, h2]
  rw [htpl] at h
  simp only [renderInto, Prod.mk.injEq] at h
  obtain ⟨hs, herr⟩ := h
  have hex : Execute env "StringAccessor" s.definitionsBuffer
      (vectorStringAccessorText env f)
      = ((Execute env "StringAccessor" s.definitionsBuffer
          (vectorStringAccessorText env f)).1, none) := by
    rw [← herr]
  rw [← hs]
  exact Execute_ok hex

/-! ## The flush -/

theorem string_eq_empty_of_length (s : String) (h : ¬ 0 < s.length) : s = "" := by
  have h0 : s.data.length = 0 := by
    have : s.length = s.data.length := rfl
    omega
  exact String.ext (List.length_eq_zero.mp h0)

theorem Writer_Write_ok (w w1 : Writer) (p : String) (m : Nat)
    (h : w.Write p = (w1, m, none)) : w1.written = w.written ++ p ∧ m = p.length := by
  unfold Writer.Write at h
  split at h
  · simp only [Prod.mk.injEq, and_true] at h
    obtain ⟨h1, h2⟩ := h
    subst h1
    exact ⟨rfl, h2.symm⟩
  · split at h
    · simp only [Prod.mk.injEq, and_true] at h
      obtain ⟨h1, h2⟩ := h
      subst h1
      exact ⟨rfl, h2.symm⟩
    · simp at h

theorem BufferWriteTo_ok (buf b : String) (w w1 : Writer)
    (h : BufferWriteTo buf w = (b, w1, none)) :
    b = "" ∧ w1.written = w.written ++ buf := by
  unfold BufferWriteTo at h
  by_cases hlen : 0 < buf.length
  · rw [if_pos hlen] at h
    generalize hw : w.Write buf = res at h
    rcases res with ⟨w2, m, _ | e⟩
    · obtain ⟨hwr, hm⟩ := Writer_Write_ok w w2 buf m hw
      simp only [hm, ne_eq, not_true_eq_false, if_false, Prod.mk.injEq, and_true] at h
      obtain ⟨h1, h2⟩ := h
      subst h2
      exact ⟨h1.symm, hwr⟩
    · simp at h
  · rw [if_neg hlen] at h
    simp only [Prod.mk.injEq, and_true] at h
    obtain ⟨h1, h2⟩ := h
    subst h2
    rw [string_eq_empty_of_length buf hlen]
    exact ⟨h1.symm, by simp⟩

theorem ImportsWrite_ok (env : Env) (imports : List String) (w w1 : Writer)
    (h : ImportsWrite env imports w = (w1, none)) :
    w1.written = w.written ++ env.importsText imports := by
  unfold ImportsWrite at h
  generalize hw : w.Write (env.importsText imports) = res at h
  rcases res with ⟨w2, m, e⟩
  simp only [Prod.mk.injEq] at h
  obtain ⟨h1, h2⟩ := h
  subst h1 h2
  exact (Writer_Write_ok w w2 _ m hw).1

theorem FlushBuffers_ok (env : Env) (t t' : TableReaderGenerator) (wr wr' : Writer)
    (h : FlushBuffers env t wr = ((t', wr'), none)) :
    wr'.written = wr.written ++ env.importsText t.imports ++ t.definitionsBuffer
        ++ t.functionsBuffer
    ∧ t'.imports = t.imports ∧ t'.definitionsBuffer = "" ∧ t'.functionsBuffer = "" := by
  unfold FlushBuffers at h
  generalize hi : ImportsWrite env t.imports wr = r1 at h
  rcases r1 with ⟨w1, _ | e⟩
  · simp only at h
    generalize hd : BufferWriteTo t.definitionsBuffer w1 = r2 at h
    rcases r2 with ⟨d, w2, _ | e⟩
    · simp only at h
      generalize hf : BufferWriteTo t.functionsBuffer w2 = r3 at h
      rcases r3 with ⟨f, w3, _ | e⟩
      · simp only [Prod.mk.injEq, and_true] at h
        obtain ⟨ht, hw⟩ := h
        subst ht hw
        have e1 := ImportsWrite_ok env t.imports wr w1 hi
        obtain ⟨hd1, hd2⟩ := BufferWriteTo_ok _ _ _ _ hd
        obtain ⟨hf1, hf2⟩ := BufferWriteTo_ok _ _ _ _ hf
        refine ⟨?_, rfl, hd1, hf1⟩
        rw [hf2, hd2, e1]
      · simp at h
    · simp at h
  · simp at h

/-! ## The pass before the flush -/

theorem Generate_eq_assemble (env : Env) (t : TableReaderGenerator) (wr : Writer) :
    Generate env t wr =
      match assemble env t with
      | (t4, some e) => ((t4, wr), some e)
      | (t4, none) => FlushBuffers env t4 wr := by
  unfold Generate assemble
  rcases StartInterface env t with ⟨t1, _ | e⟩
  · simp only
    rcases CreateAccessors env t1 with ⟨t2, _ | e⟩
    · simp only
      rcases CreateVector env t2 with ⟨t3, _ | e⟩
      · simp only [EndInterface]
      · rfl
    · rfl
  · rfl

theorem Execute_extends (env : Env) (name buf full : String) :
    ∃ x, (Execute env name buf full).1 = buf ++ x := by
  unfold Execute
  split
  · exact ⟨full, rfl⟩
  · exact ⟨_, rfl⟩

theorem accessorStep_extends (env : Env) (t : TableReaderGenerator) (i : Nat)
    (r : Except Error Field) :
    ∃ x, (accessorStep env t i r).1.definitionsBuffer = t.definitionsBuffer ++ x := by
  cases r with
  | error e => exact ⟨"", by simp [accessorStep]⟩
  | ok f =>
    rw [accessorStep_ok]
    split
    · exact ⟨"", by simp⟩
    · exact Execute_extends env _ _ _

theorem CreateAccessorsFrom_extends (env : Env) :
    ∀ (rs : List (Except Error Field)) (i : Nat) (t : TableReaderGenerator),
      ∃ x, (CreateAccessorsFrom env i rs t).1.definitionsBuffer
        = t.definitionsBuffer ++ x := by
  intro rs
  induction rs with
  | nil => intro i t; exact ⟨"", by simp [CreateAccessorsFrom]⟩
  | cons r rs ih =>
    intro i t
    simp only [CreateAccessorsFrom]
    obtain ⟨x, hx⟩ := accessorStep_extends env t i r
    generalize accessorStep env t i r = res at hx ⊢
    rcases res with ⟨t1, _ | e⟩
    · simp only at hx ⊢
      obtain ⟨y, hy⟩ := ih (i + 1) t1
      exact ⟨x ++ y, by rw [hy, hx, String.append_assoc]⟩
    · exact ⟨x, hx⟩

/-- What a successful pass before the flush leaves in the generator. -/
theorem assemble_ok (env : Env) (t t4 : TableReaderGenerator)
    (h : assemble env t = (t4, none)) :
    ∃ t2 accessors,
      CreateAccessors env (StartInterface env t).1 = (t2, none)
      ∧ (StartInterface env t).2 = none
      ∧ t2.definitionsBuffer
          = t.definitionsBuffer ++ startInterfaceText env t.table ++ accessors
      ∧ t4.definitionsBuffer
          = t.definitionsBuffer ++ startInterfaceText env t.table ++ accessors ++ "\n\x7d\n"
      ∧ t4.functionsBuffer
          = t.functionsBuffer ++ createVectorText (env.TableName t.table)
      ∧ t4.imports = t2.imports := by
  unfold assemble at h
  generalize hs : StartInterface env t = r1 at h
  rcases r1 with ⟨t1, _ | e⟩
  · simp only at h
    generalize hc : CreateAccessors env t1 = r2 at h
    rcases r2 with ⟨t2, _ | e⟩
    · simp only at h
      generalize hv : CreateVector env t2 = r3 at h
      rcases r3 with ⟨t3, _ | e⟩
      · simp only [EndInterface, Prod.mk.injEq, and_true] at h
        subst h
        -- the header
        unfold StartInterface at hs
        generalize hx : Execute env "TableReaderGenerator" t.definitionsBuffer
          (startInterfaceText env t.table) = rx at hs
        rcases rx with ⟨b, eb⟩
        simp only [Prod.mk.injEq] at hs
        obtain ⟨hs1, hs2⟩ := hs
        subst hs2
        have hb := Execute_ok hx
        -- the accessors
        have htab : t2.table = t1.table := by
          have := CreateAccessorsFrom_table env t1.table.Fields 0 t1
          unfold CreateAccessors at hc
          rw [hc] at this
          exact this
        have hfun : t2.functionsBuffer = t1.functionsBuffer := by
          have := CreateAccessorsFrom_functionsBuffer env t1.table.Fields 0 t1
          unfold CreateAccessors at hc
          rw [hc] at this
          exact this
        obtain ⟨accessors, hacc⟩ := CreateAccessorsFrom_extends env t1.table.Fields 0 t1
        have hacc2 : t2.definitionsBuffer = t1.definitionsBuffer ++ accessors := by
          unfold CreateAccessors at hc
          rw [hc] at hacc
          exact hacc
        -- the vector wrapper
        unfold CreateVector at hv
        generalize hy : Execute env "TableReaderGenerator::GenerateVector"
          t2.functionsBuffer (createVectorText (env.TableName t2.table)) = ry at hv
        rcases ry with ⟨c, ec⟩
        simp only [Prod.mk.injEq] at hv
        obtain ⟨hv1, hv2⟩ := hv
        subst hv2
        have hcv := Execute_ok hy
        subst hs1 hv1
        simp only at htab hfun hacc2
        refine ⟨t2, accessors, rfl, rfl, ?_, ?_, ?_, rfl⟩
        · rw [hacc2, hb]
        · have hlit : ("\n" ++ "\x7d\n" : String) = "\n\x7d\n" := by decide
          simp only
          rw [hacc2, hb, hlit]
        · simp only
          rw [hcv, hfun, htab]
      · simp at h
    · simp at h
  · simp at h

theorem Generate_ok (env : Env) (t t' : TableReaderGenerator) (wr wr' : Writer)
    (h : Generate env t wr = ((t', wr'), none)) :
    ∃ t4, assemble env t = (t4, none) ∧ FlushBuffers env t4 wr = ((t', wr'), none) := by
  rw [Generate_eq_assemble] at h
  generalize ha : assemble env t = r at h
  rcases r with ⟨t4, _ | e⟩
  · exact ⟨t4, rfl, h⟩
  · simp at h

theorem CreateAccessorsFrom_error (env : Env) :
    ∀ (rs : List (Except Error Field)) (i : Nat) (t t' : TableReaderGenerator) (e : Error),
      CreateAccessorsFrom env i rs t = (t', some e) →
      ∃ pre r post s0, rs = pre ++ r :: post
        ∧ CreateAccessorsFrom env i pre t = (s0, none)
        ∧ accessorStep env s0 (i + pre.length) r = (t', some e) := by
  intro rs
  induction rs with
  | nil => intro i t t' e h; simp [CreateAccessorsFrom] at h
  | cons r rs ih =>
    intro i t t' e h
    simp only [CreateAccessorsFrom] at h
    generalize hstep : accessorStep env t i r = res at h
    rcases res with ⟨t1, _ | e1⟩
    · simp only at h
      obtain ⟨pre, r', post, s0, hrs, hpre, hfail⟩ := ih (i + 1) t1 t' e h
      refine ⟨r :: pre, r', post, s0, by rw [hrs]; rfl, ?_, ?_⟩
      · simp only [CreateAccessorsFrom, hstep]
        exact hpre
      · have hidx : i + (r :: pre).length = i + 1 + pre.length := by
          simp only [List.length_cons]; omega
        rw [hidx]
        exact hfail
    · simp only [Prod.mk.injEq, Option.some.injEq] at h
      obtain ⟨h1, h2⟩ := h
      subst h1 h2
      exact ⟨[], r, rs, t, rfl, rfl, hstep⟩

/-! ## A table with and without a skipped field -/

theorem Unproducible_of_ResolverFails (env : Env) (app : String) (f : Field)
    (h : ResolverFails env app f) : Unproducible env app f := by
  rcases h with ⟨h1, h2, h3⟩ | ⟨h1, h2, h3⟩
  · exact Or.inl ⟨h1, h2, Or.inl h3⟩
  · exact Or.inr ⟨h1, h2, Or.inl h3⟩

theorem CreateAccessors_without (env : Env) (t : TableReaderGenerator)
    (md : Metadata) (pre post : List (Except Error Field)) (f : Field)
    (htable : t.table = ⟨md, pre ++ .ok f :: post⟩)
    (hf : Unproducible env md.Application f) :
    CreateAccessors env (withTable t ⟨md, pre ++ post⟩)
      = (withTable (CreateAccessors env t).1 ⟨md, pre ++ post⟩,
          (CreateAccessors env t).2) := by
  have happ : t.table.Metadata.Application = md.Application := by rw [htable]
  have hskip : CreateAccessors env t = CreateAccessorsFrom env 0 (pre ++ post) t := by
    unfold CreateAccessors
    rw [htable]
    exact CreateAccessorsFrom_skip env pre post f 0 t (by rw [happ]; exact hf)
  rw [hskip]
  exact CreateAccessorsFrom_withTable env ⟨md, pre ++ post⟩ (pre ++ post) 0 t happ.symm

theorem StartInterface_table (env : Env) (t : TableReaderGenerator) :
    (StartInterface env t).1.table = t.table := by
  rfl

theorem StartInterface_withTable (env : Env) (t : TableReaderGenerator) (tbl : Table)
    (hname : env.TableName tbl = env.TableName t.table)
    (hmd : tbl.Metadata = t.table.Metadata) :
    StartInterface env (withTable t tbl)
      = (withTable (StartInterface env t).1 tbl, (StartInterface env t).2) := by
  have htext : startInterfaceText env tbl = startInterfaceText env t.table := by
    unfold startInterfaceText
    rw [hname, hmd]
  unfold StartInterface
  simp only [withTable, htext]

theorem CreateVector_withTable (env : Env) (t : TableReaderGenerator) (tbl : Table)
    (hname : env.TableName tbl = env.TableName t.table) :
    CreateVector env (withTable t tbl)
      = (withTable (CreateVector env t).1 tbl, (CreateVector env t).2) := by
  unfold CreateVector
  simp only [withTable, hname]

theorem FlushBuffers_withTable (env : Env) (t : TableReaderGenerator) (tbl : Table)
    (wr : Writer) :
    FlushBuffers env (withTable t tbl) wr
      = ((withTable (FlushBuffers env t wr).1.1 tbl, (FlushBuffers env t wr).1.2),
          (FlushBuffers env t wr).2) := by
  unfold FlushBuffers
  simp only [withTable]
  rcases ImportsWrite env t.imports wr with ⟨w1, _ | e⟩
  · simp only
    rcases BufferWriteTo t.definitionsBuffer w1 with ⟨d, w2, _ | e⟩
    · simp only
      rcases BufferWriteTo t.functionsBuffer w2 with ⟨f, w3, _ | e⟩
      · rfl
      · rfl
    · rfl
  · rfl

theorem Generate_without (env : Env) (t : TableReaderGenerator) (wr : Writer)
    (md : Metadata) (pre post : List (Except Error Field)) (f : Field)
    (htable : t.table = ⟨md, pre ++ .ok f :: post⟩)
    (hf : Unproducible env md.Application f)
    (hname : env.TableName ⟨md, pre ++ post⟩ = env.TableName ⟨md, pre ++ .ok f :: post⟩) :
    Generate env (withTable t ⟨md, pre ++ post⟩) wr
      = ((withTable (Generate env t wr).1.1 ⟨md, pre ++ post⟩, (Generate env t wr).1.2),
          (Generate env t wr).2) := by
  have hname1 : env.TableName ⟨md, pre ++ post⟩ = env.TableName t.table := by
    rw [htable]; exact hname
  have hmd : (⟨md, pre ++ post⟩ : Table).Metadata = t.table.Metadata := by rw [htable]
  unfold Generate
  rw [StartInterface_withTable env t _ hname1 hmd]
  have ht1 := StartInterface_table env t
  generalize StartInterface env t = r1 at ht1 ⊢
  rcases r1 with ⟨t1, _ | e⟩
  · simp only at ht1 ⊢
    rw [CreateAccessors_without env t1 md pre post f (by rw [ht1]; exact htable) hf]
    have ht2 : (CreateAccessors env t1).1.table = t1.table :=
      CreateAccessorsFrom_table env t1.table.Fields 0 t1
    generalize CreateAccessors env t1 = r2 at ht2 ⊢
    rcases r2 with ⟨t2, _ | e⟩
    · simp only at ht2 ⊢
      rw [CreateVector_withTable env t2 _ (by rw [ht2, ht1]; exact hname1)]
      generalize CreateVector env t2 = r3
      rcases r3 with ⟨t3, _ | e⟩
      · simp only [EndInterface]
        exact FlushBuffers_withTable env
          { t3 with definitionsBuffer := t3.definitionsBuffer ++ ("\n" ++ "\x7d\n") }
          ⟨md, pre ++ post⟩ wr
      · rfl
    · rfl
  · rfl

theorem BufferWriteTo_open (buf w : String) :
    BufferWriteTo buf ⟨w, none⟩ = ("", ⟨w ++ buf, none⟩, none) := by
  unfold BufferWriteTo
  by_cases hlen : 0 < buf.length
  · simp [hlen, Writer.Write]
  · rw [if_neg hlen, string_eq_empty_of_length buf hlen]
    simp

theorem FlushBuffers_open (env : Env) (t : TableReaderGenerator) (w : String) :
    FlushBuffers env t ⟨w, none⟩
      = (({ t with definitionsBuffer := "", functionsBuffer := "" },
          ⟨w ++ env.importsText t.imports ++ t.definitionsBuffer ++ t.functionsBuffer,
            none⟩), none) := by
  unfold FlushBuffers ImportsWrite
  simp only [Writer.Write, BufferWriteTo_open]

/-! ## Independence of the resolver -/

theorem titleFrom_resolver (env : Env) (resolver : String → Option IDReader) :
    ∀ (cs : List Char) (prev : Char),
      titleFrom { env with NewIDReader := resolver } prev cs = titleFrom env prev cs := by
  intro cs
  induction cs with
  | nil => intro prev; rfl
  | cons c cs ih =>
    intro prev
    simp only [titleFrom, ih c]
    rfl

theorem GoDoc_resolver (env : Env) (resolver : String → Option IDReader) (name : String)
    (d : Option Documentation) :
    GoDoc { env with NewIDReader := resolver } name d = GoDoc env name d := by
  have ht : ∀ s, Title { env with NewIDReader := resolver } s = Title env s := by
    intro s
    unfold Title
    rw [titleFrom_resolver]
  unfold GoDoc
  simp only [ht]

theorem stringAccessorText_resolver (env : Env) (resolver : String → Option IDReader)
    (f : Field) :
    stringAccessorText { env with NewIDReader := resolver } f = stringAccessorText env f := by
  unfold stringAccessorText Capitalize Title
  rw [GoDoc_resolver, titleFrom_resolver]

/-! ## The name of the vector wrapper -/

theorem createVectorText_name (tableName : String) :
    createVectorText tableName
      = "\n//" ++ vectorReaderName tableName ++ " ...\ntype " ++ vectorReaderName tableName
        ++ " interface \x7b\n\n    // Returns the current size of this vector\n    Len() int\n\n    //Get the item in the position i, if i < Len(),\n    //if item does not exist should return the default value for the underlying data type\n    //when i > Len() should return an VectorInvalidIndexError\n    Get(i int) (item "
        ++ tableName ++ "Reader, err error)\n\x7d\n" := by
  have e1 : ("\n//Vector" : String) = "\n//" ++ "Vector" := by decide
  have e2 : ("Reader ...\ntype Vector" : String) = "Reader" ++ " ...\ntype " ++ "Vector" := by
    decide
  have e3 : ("Reader interface \x7b\n\n    // Returns the current size of this vector\n    Len() int\n\n    //Get the item in the position i, if i < Len(),\n    //if item does not exist should return the default value for the underlying data type\n    //when i > Len() should return an VectorInvalidIndexError\n    Get(i int) (item " : String)
      = "Reader" ++ " interface \x7b\n\n    // Returns the current size of this vector\n    Len() int\n\n    //Get the item in the position i, if i < Len(),\n    //if item does not exist should return the default value for the underlying data type\n    //when i > Len() should return an VectorInvalidIndexError\n    Get(i int) (item " := by
    decide
  unfold createVectorText vectorReaderName
  rw [e1, e2, e3]
  simp only [String.append_assoc]

/-! ## The accessors in field order -/

theorem joinTexts_append (xs ys : List String) :
    joinTexts (xs ++ ys) = joinTexts xs ++ joinTexts ys := by
  induction xs with
  | nil => simp [joinTexts]
  | cons x xs ih => simp [joinTexts, ih, String.append_assoc]

theorem Execute_completes (env : Env) (name buf full : String) :
    ∃ rest, (Execute env name buf full).1 ++ rest = buf ++ full := by
  unfold Execute
  split
  · exact ⟨"", by simp⟩
  · rename_i n e _
    refine ⟨⟨full.data.drop n⟩, ?_⟩
    rw [String.append_assoc]
    congr 1
    apply String.ext
    simp [String.data_append, List.take_append_drop]

theorem accessorStep_text (env : Env) (t t1 : TableReaderGenerator) (i : Nat)
    (r : Except Error Field) (h : accessorStep env t i r = (t1, none)) :
    t1.definitionsBuffer
      = t.definitionsBuffer ++ accessorText env t.table.Metadata.Application r := by
  cases r with
  | error e => simp [accessorStep] at h
  | ok f =>
    rw [accessorStep_ok] at h
    cases htpl : fieldTemplate env t.table.Metadata.Application f with
    | none =>
      rw [htpl] at h
      simp only [Prod.mk.injEq, and_true] at h
      subst h
      simp [accessorText, htpl]
    | some tpl =>
      rw [htpl] at h
      simp only [renderInto, Prod.mk.injEq] at h
      obtain ⟨hs, herr⟩ := h
      have hex : Execute env tpl.1 t.definitionsBuffer tpl.2.1
          = ((Execute env tpl.1 t.definitionsBuffer tpl.2.1).1, none) := by
        rw [← herr]
      have hbuf := Execute_ok hex
      rw [← hs]
      simp only [accessorText, htpl]
      exact hbuf

theorem accessorStep_text_any (env : Env) (t : TableReaderGenerator) (i : Nat)
    (r : Except Error Field) :
    ∃ rest, (accessorStep env t i r).1.definitionsBuffer ++ rest
      = t.definitionsBuffer ++ accessorText env t.table.Metadata.Application r := by
  cases r with
  | error e => exact ⟨"", rfl⟩
  | ok f =>
    rw [accessorStep_ok]
    cases htpl : fieldTemplate env t.table.Metadata.Application f with
    | none =>
      refine ⟨"", ?_⟩
      simp [accessorText, htpl]
    | some tpl =>
      obtain ⟨rest, hrest⟩ := Execute_completes env tpl.1 t.definitionsBuffer tpl.2.1
      refine ⟨rest, ?_⟩
      simp only [accessorText, htpl, renderInto]
      exact hrest

theorem CreateAccessorsFrom_text (env : Env) :
    ∀ (rs : List (Except Error Field)) (i : Nat) (t t' : TableReaderGenerator),
      CreateAccessorsFrom env i rs t = (t', none) →
      t'.definitionsBuffer = t.definitionsBuffer
        ++ joinTexts (rs.map (accessorText env t.table.Metadata.Application)) := by
  intro rs
  induction rs with
  | nil =>
    intro i t t' h
    simp only [CreateAccessorsFrom, Prod.mk.injEq, and_true] at h
    subst h
    simp [joinTexts]
  | cons r rs ih =>
    intro i t t' h
    simp only [CreateAccessorsFrom] at h
    have htab := accessorStep_table env t i r
    generalize hstep : accessorStep env t i r = res at h htab
    rcases res with ⟨t1, _ | e⟩
    · simp only at h htab
      rw [ih (i + 1) t1 t' h, accessorStep_text env t t1 i r hstep, htab]
      simp [joinTexts, String.append_assoc]
    · simp at h

theorem CreateAccessorsFrom_text_any (env : Env) :
    ∀ (rs : List (Except Error Field)) (i : Nat) (t : TableReaderGenerator),
      ∃ rest, (CreateAccessorsFrom env i rs t).1.definitionsBuffer ++ rest
        = t.definitionsBuffer
          ++ joinTexts (rs.map (accessorText env t.table.Metadata.Application)) := by
  intro rs
  induction rs with
  | nil => intro i t; exact ⟨"", rfl⟩
  | cons r rs ih =>
    intro i t
    simp only [CreateAccessorsFrom]
    have htab := accessorStep_table env t i r
    obtain ⟨rest0, h0⟩ := accessorStep_text_any env t i r
    generalize hstep : accessorStep env t i r = res at htab h0 ⊢
    rcases res with ⟨t1, _ | e⟩
    · simp only at htab h0 ⊢
      have hexact := accessorStep_text env t t1 i r hstep
      obtain ⟨rest, hrest⟩ := ih (i + 1) t1
      refine ⟨rest, ?_⟩
      rw [hrest, hexact, htab]
      simp [joinTexts, String.append_assoc]
    · simp only at h0 ⊢
      refine ⟨rest0 ++ joinTexts (rs.map (accessorText env t.table.Metadata.Application)), ?_⟩
      rw [← String.append_assoc, h0]
      simp [joinTexts, String.append_assoc]

/-! ## The definitions region -/

theorem StartInterface_buffer (env : Env) (t : TableReaderGenerator)
    (h : (StartInterface env t).2 = none) :
    (StartInterface env t).1.definitionsBuffer
      = t.definitionsBuffer ++ startInterfaceText env t.table := by
  unfold StartInterface at h ⊢
  generalize hx : Execute env "TableReaderGenerator" t.definitionsBuffer
    (startInterfaceText env t.table) = rx at h ⊢
  rcases rx with ⟨b, eb⟩
  simp only at h ⊢
  subst h
  exact Execute_ok hx

theorem assemble_ok_texts (env : Env) (t t4 : TableReaderGenerator)
    (h : assemble env t = (t4, none)) :
    t4.definitionsBuffer
      = t.definitionsBuffer ++ startInterfaceText env t.table
        ++ joinTexts (t.table.Fields.map (accessorText env t.table.Metadata.Application))
        ++ "\n\x7d\n" := by
  obtain ⟨t2, accessors, hc, hs, hdefs2, hdefs4, _, _⟩ := assemble_ok env t t4 h
  have htext := CreateAccessorsFrom_text env (StartInterface env t).1.table.Fields 0
    (StartInterface env t).1 t2 hc
  rw [StartInterface_buffer env t hs, StartInterface_table] at htext
  rw [hdefs4, ← hdefs2, htext]

/-! ## Sinks that differ in what they held before -/

theorem Writer_Write_shift (w1 w2 : String) (room : Option Nat) (p : String) :
    ∃ x room1 m e, Writer.Write ⟨w1, room⟩ p = (⟨w1 ++ x, room1⟩, m, e)
      ∧ Writer.Write ⟨w2, room⟩ p = (⟨w2 ++ x, room1⟩, m, e) := by
  unfold Writer.Write
  cases room with
  | none => exact ⟨p, none, p.length, none, rfl, rfl⟩
  | some n =>
    by_cases hlen : p.length ≤ n
    · exact ⟨p, some (n - p.length), p.length, none, by simp [hlen], by simp [hlen]⟩
    · exact ⟨⟨p.data.take n⟩, some 0, n, some "short write", by simp [hlen],
        by simp [hlen]⟩

theorem BufferWriteTo_shift (buf w1 w2 : String) (room : Option Nat) :
    ∃ x room1 b e, BufferWriteTo buf ⟨w1, room⟩ = (b, ⟨w1 ++ x, room1⟩, e)
      ∧ BufferWriteTo buf ⟨w2, room⟩ = (b, ⟨w2 ++ x, room1⟩, e) := by
  unfold BufferWriteTo
  by_cases hlen : 0 < buf.length
  · simp only [hlen, if_true]
    obtain ⟨x, room1, m, e, h1, h2⟩ := Writer_Write_shift w1 w2 room buf
    rw [h1, h2]
    cases e with
    | some e => exact ⟨x, room1, ⟨buf.data.drop m⟩, some e, rfl, rfl⟩
    | none =>
      by_cases hm : m ≠ buf.length
      · exact ⟨x, room1, ⟨buf.data.drop m⟩, some "short write", by simp [hm],
          by simp [hm]⟩
      · exact ⟨x, room1, "", none, by simp [hm], by simp [hm]⟩
  · simp only [hlen, if_false]
    exact ⟨"", room, "", none, by simp, by simp⟩

theorem FlushBuffers_shift (env : Env) (t : TableReaderGenerator) (w1 w2 : String)
    (room : Option Nat) :
    ∃ out room1 t1 e, FlushBuffers env t ⟨w1, room⟩ = ((t1, ⟨w1 ++ out, room1⟩), e)
      ∧ FlushBuffers env t ⟨w2, room⟩ = ((t1, ⟨w2 ++ out, room1⟩), e) := by
  unfold FlushBuffers ImportsWrite
  obtain ⟨x, r1, m, e, h1, h2⟩ := Writer_Write_shift w1 w2 room (env.importsText t.imports)
  rw [h1, h2]
  cases e with
  | some e => exact ⟨x, r1, t, some e, rfl, rfl⟩
  | none =>
    simp only
    obtain ⟨y, r2, d, e2, h3, h4⟩ := BufferWriteTo_shift t.definitionsBuffer (w1 ++ x)
      (w2 ++ x) r1
    rw [h3, h4]
    cases e2 with
    | some e =>
      exact ⟨x ++ y, r2, { t with definitionsBuffer := d }, some e,
        by simp [String.append_assoc], by simp [String.append_assoc]⟩
    | none =>
      simp only
      obtain ⟨z, r3, f, e3, h5, h6⟩ := BufferWriteTo_shift t.functionsBuffer
        (w1 ++ x ++ y) (w2 ++ x ++ y) r2
      rw [h5, h6]
      cases e3 with
      | some e =>
        exact ⟨x ++ y ++ z, r3, { t with definitionsBuffer := d, functionsBuffer := f },
          some e, by simp [String.append_assoc], by simp [String.append_assoc]⟩
      | none =>
        exact ⟨x ++ y ++ z, r3, { t with definitionsBuffer := d, functionsBuffer := f },
          none, by simp [String.append_assoc], by simp [String.append_assoc]⟩

theorem Generate_shift (env : Env) (t : TableReaderGenerator) (w1 w2 : String)
    (room : Option Nat) :
    ∃ out room1 t1 e, Generate env t ⟨w1, room⟩ = ((t1, ⟨w1 ++ out, room1⟩), e)
      ∧ Generate env t ⟨w2, room⟩ = ((t1, ⟨w2 ++ out, room1⟩), e) := by
  rw [Generate_eq_assemble, Generate_eq_assemble]
  rcases assemble env t with ⟨t4, _ | e⟩
  · exact FlushBuffers_shift env t4 w1 w2 room
  · exact ⟨"", room, t4, some e, by simp, by simp⟩

theorem assemble_imports (env : Env) (t : TableReaderGenerator) :
    (assemble env t).1.imports = (CreateAccessors env (StartInterface env t).1).1.imports
      ∨ (assemble env t).1.imports = t.imports := by
  unfold assemble
  have hs : (StartInterface env t).1.imports = t.imports := rfl
  generalize StartInterface env t = r1 at hs ⊢
  rcases r1 with ⟨t1, _ | e⟩
  · simp only at hs ⊢
    rcases CreateAccessors env t1 with ⟨t2, _ | e⟩
    · simp only
      have hv : (CreateVector env t2).1.imports = t2.imports := rfl
      generalize CreateVector env t2 = r3 at hv ⊢
      rcases r3 with ⟨t3, _ | e⟩
      · exact Or.inl hv
      · exact Or.inl hv
    · exact Or.inl rfl
  · exact Or.inr hs

theorem assemble_imports_fresh (env : Env) (tbl : Table) (ip : String) :
    (assemble env (NewTableReaderGenerator tbl ip)).1.imports = []
      ∨ (assemble env (NewTableReaderGenerator tbl ip)).1.imports
        = ["github.com/nebtex/hybrids/golang/hybrids"] := by
  rcases assemble_imports env (NewTableReaderGenerator tbl ip) with h | h
  · rw [h]
    obtain ⟨hor, _⟩ := CreateAccessorsFrom_imports_any env
      (StartInterface env (NewTableReaderGenerator tbl ip)).1.table.Fields 0
      (StartInterface env (NewTableReaderGenerator tbl ip)).1
    have hi : (StartInterface env (NewTableReaderGenerator tbl ip)).1.imports = [] := rfl
    have hp : (StartInterface env (NewTableReaderGenerator tbl ip)).1.hybridsInterfacePackage
        = "github.com/nebtex/hybrids/golang/hybrids" := rfl
    rw [hi, hp, AddImport_nil] at hor
    exact hor
  · exact Or.inl h

/-! ## A second pass on the same generator -/

theorem accessorStep_cleared (env : Env) (t : TableReaderGenerator) (i : Nat)
    (r : Except Error Field) : cleared (accessorStep env t i r).1 = cleared t := by
  cases r with
  | error e => rfl
  | ok f =>
    rw [accessorStep_ok]
    split <;> rfl

theorem assemble_cleared (env : Env) (t : TableReaderGenerator) :
    cleared (assemble env t).1 = cleared t := by
  unfold assemble
  have hs : cleared (StartInterface env t).1 = cleared t := rfl
  generalize StartInterface env t = r1 at hs ⊢
  rcases r1 with ⟨t1, _ | e⟩
  · simp only at hs ⊢
    have hc : cleared (CreateAccessors env t1).1 = cleared t1 :=
      CreateAccessorsFrom_preserves env cleared (accessorStep_cleared env) _ 0 t1
    generalize CreateAccessors env t1 = r2 at hc ⊢
    rcases r2 with ⟨t2, _ | e⟩
    · simp only at hc ⊢
      have hv : cleared (CreateVector env t2).1 = cleared t2 := rfl
      generalize CreateVector env t2 = r3 at hv ⊢
      rcases r3 with ⟨t3, _ | e⟩
      · simp only at hv ⊢
        rw [← hs, ← hc, ← hv]
        rfl
      · simp only at hv ⊢
        rw [← hs, ← hc, ← hv]
    · simp only at hc ⊢
      rw [← hs, ← hc]
  · exact hs

theorem accessorStep_withImports (env : Env) (t : TableReaderGenerator) (l : List String)
    (i : Nat) (r : Except Error Field) :
    accessorStep env (withImports t l) i r
      = (withImports (accessorStep env t i r).1
            (accessorStep env (withImports t l) i r).1.imports,
          (accessorStep env t i r).2) := by
  cases r with
  | error e => rfl
  | ok f =>
    rw [accessorStep_ok, accessorStep_ok]
    have h : (withImports t l).table.Metadata.Application
        = t.table.Metadata.Application := rfl
    rw [h]
    split <;> rfl

theorem CreateAccessorsFrom_withImports (env : Env) :
    ∀ (rs : List (Except Error Field)) (i : Nat) (t : TableReaderGenerator)
      (l : List String),
      CreateAccessorsFrom env i rs (withImports t l)
        = (withImports (CreateAccessorsFrom env i rs t).1
              (CreateAccessorsFrom env i rs (withImports t l)).1.imports,
            (CreateAccessorsFrom env i rs t).2) := by
  intro rs
  induction rs with
  | nil => intro i t l; rfl
  | cons r rs ih =>
    intro i t l
    simp only [CreateAccessorsFrom]
    have hstep := accessorStep_withImports env t l i r
    generalize (accessorStep env (withImports t l) i r).1.imports = l1 at hstep
    rw [hstep]
    rcases accessorStep env t i r with ⟨t1, _ | e⟩
    · simp only
      exact ih (i + 1) t1 l1
    · rfl

theorem assemble_withImports (env : Env) (t : TableReaderGenerator) (l : List String) :
    assemble env (withImports t l)
      = (withImports (assemble env t).1 (assemble env (withImports t l)).1.imports,
          (assemble env t).2) := by
  unfold assemble
  have hs : StartInterface env (withImports t l)
      = (withImports (StartInterface env t).1 l, (StartInterface env t).2) := rfl
  rw [hs]
  rcases StartInterface env t with ⟨t1, _ | e⟩
  · simp only
    have hc := CreateAccessorsFrom_withImports env t1.table.Fields 0 t1 l
    have hc2 : CreateAccessors env (withImports t1 l)
        = (withImports (CreateAccessors env t1).1
              (CreateAccessors env (withImports t1 l)).1.imports,
            (CreateAccessors env t1).2) := hc
    generalize (CreateAccessors env (withImports t1 l)).1.imports = l2 at hc2
    rw [hc2]
    rcases CreateAccessors env t1 with ⟨t2, _ | e⟩
    · simp only
      have hv : CreateVector env (withImports t2 l2)
          = (withImports (CreateVector env t2).1 l2, (CreateVector env t2).2) := rfl
      rw [hv]
      rcases CreateVector env t2 with ⟨t3, _ | e⟩
      · rfl
      · rfl
    · rfl
  · rfl

theorem assemble_imports_ok (env : Env) (t t4 : TableReaderGenerator)
    (h : assemble env t = (t4, none)) :
    (hasVectorString t.table.Fields →
        t4.imports = AddImport t.imports t.hybridsInterfacePackage)
    ∧ (¬ hasVectorString t.table.Fields → t4.imports = t.imports) := by
  obtain ⟨t2, _, hc, _, _, _, _, himp⟩ := assemble_ok env t t4 h
  have hc2 : CreateAccessorsFrom env 0 t.table.Fields (StartInterface env t).1
      = (t2, none) := hc
  obtain ⟨hyes, hno⟩ := CreateAccessorsFrom_imports env t.table.Fields 0 _ t2 hc2
  rw [himp]
  exact ⟨hyes, hno⟩

theorem assemble_again (env : Env) (t t4 : TableReaderGenerator)
    (h : assemble env t = (t4, none)) :
    assemble env (withImports t t4.imports) = (t4, none) := by
  have hw := assemble_withImports env t t4.imports
  rw [h] at hw
  simp only at hw
  obtain ⟨hyes, hno⟩ := assemble_imports_ok env t t4 h
  obtain ⟨hyes2, hno2⟩ := assemble_imports_ok env _ _ hw
  have hj : (assemble env (withImports t t4.imports)).1.imports = t4.imports := by
    by_cases hv : hasVectorString t.table.Fields
    · have h2 : (assemble env (withImports t t4.imports)).1.imports
          = AddImport t4.imports t.hybridsInterfacePackage := hyes2 hv
      have h1 := hyes hv
      rw [h2, h1, AddImport_idem]
    · exact hno2 hv
  rw [hj] at hw
  rw [hw]
  rfl

/-! ## References to tables -/

theorem accessorStep_table_reference (env : Env) (t : TableReaderGenerator) (i : Nat)
    (f : Field) (pid : IDReader) (h1 : f.Type_ ≠ "String") (h2 : f.Type_ ≠ "Vector")
    (hres : env.NewIDReader (t.table.Metadata.Application ++ "/" ++ f.Type_) = some pid)
    (hkind : pid.Kind = "Table")
    (hfault : env.templateFault "StringAccessor" (tableAccessorText env f pid.ID) = none) :
    accessorStep env t i (.ok f)
      = ({ t with definitionsBuffer := t.definitionsBuffer
            ++ ("\n    " ++ GoDoc env f.Name f.Documentation ++ "\n    "
              ++ Capitalize env f.Name ++ "() (" ++ pid.ID ++ "Reader, error)\n") },
          none) := by
  have hng : ¬ pid.Kind = "EnumerationGroup" := by rw [hkind]; decide
  have hval : TableAccessor env t f pid.ID
      = ({ t with definitionsBuffer :=
            t.definitionsBuffer ++ tableAccessorText env f pid.ID }, none) := by
    simp [TableAccessor, Execute_of_no_fault hfault]
  simp only [accessorStep, h1, h2, if_false, hres, hng]
  simp only [hkind, if_true, hval]
  rfl

theorem accessorStep_vector_of_table (env : Env) (t : TableReaderGenerator) (i : Nat)
    (f : Field) (pid : IDReader) (h1 : f.Type_ = "Vector") (h2 : f.Items ≠ "String")
    (hres : env.NewIDReader (t.table.Metadata.Application ++ "/" ++ f.Items) = some pid)
    (hkind : pid.Kind = "Table")
    (hfault : env.templateFault "StringAccessor"
      (vectorTableAccessorText env f (env.TableNameFromID pid)) = none) :
    accessorStep env t i (.ok f)
      = ({ t with definitionsBuffer := t.definitionsBuffer
            ++ ("\n    " ++ GoDoc env f.Name f.Documentation ++ "\n    "
              ++ Capitalize env f.Name ++ "() " ++ ("Vector" ++ env.TableNameFromID pid)
              ++ "Reader\n") }, none) := by
  have hne : ¬ ("Vector" : String) = "String" := by decide
  have hstep : accessorStep env t i (.ok f)
      = VectorTableAccessor env t f (i % 65536) (env.TableNameFromID pid) := by
    simp only [accessorStep, h1, hne, h2, if_false, if_true, hres, hkind]
  have hval : VectorTableAccessor env t f (i % 65536) (env.TableNameFromID pid)
      = ({ t with definitionsBuffer := t.definitionsBuffer
            ++ vectorTableAccessorText env f (env.TableNameFromID pid) }, none) := by
    simp [VectorTableAccessor, Execute_of_no_fault hfault]
  rw [hstep, hval]
  rfl

theorem registryEnv_resolves (base : Env) (tables : List Table) (token : String)
    (target : Table) (h : resolveTable tables token = some target) :
    (registryEnv base tables).NewIDReader token
      = some ⟨"Table", target.Metadata.Name, ""⟩ := by
  simp [registryEnv, h]

/-! ## Claims -/

/-- C1: for a field whose type is neither `String` nor `Vector` and whose token
resolves to a reference of kind `Table`, the loop step appends exactly one accessor,
`Capitalize(name)() (<ID>Reader, error)`, where `<ID>` is the identifier of the
reference; in a schema registry where the token names the table `target`, that is
`Capitalize(name)() (<Name of target>Reader, error)`, the same name that the header
of the target's own interface `<Name of target>Reader` carries. -/
theorem C1_table_reference_accessor (base : Env) (tables : List Table)
    (t : TableReaderGenerator) (i : Nat) (f : Field) (target : Table)
    (h1 : f.Type_ ≠ "String") (h2 : f.Type_ ≠ "Vector")
    (htarget : resolveTable tables (t.table.Metadata.Application ++ "/" ++ f.Type_)
      = some target)
    (hfault : base.templateFault "StringAccessor"
      (tableAccessorText (registryEnv base tables) f target.Metadata.Name) = none) :
    (∀ (env : Env) (pid : IDReader),
        env.NewIDReader (t.table.Metadata.Application ++ "/" ++ f.Type_) = some pid →
        pid.Kind = "Table" →
        env.templateFault "StringAccessor" (tableAccessorText env f pid.ID) = none →
        accessorStep env t i (.ok f)
          = ({ t with definitionsBuffer := t.definitionsBuffer
                ++ ("\n    " ++ GoDoc env f.Name f.Documentation ++ "\n    "
                  ++ Capitalize env f.Name ++ "() (" ++ pid.ID ++ "Reader, error)\n") },
              none))
    ∧ accessorStep (registryEnv base tables) t i (.ok f)
        = ({ t with definitionsBuffer := t.definitionsBuffer
              ++ ("\n    " ++ GoDoc (registryEnv base tables) f.Name f.Documentation
                ++ "\n    " ++ Capitalize (registryEnv base tables) f.Name ++ "() ("
                ++ target.Metadata.Name ++ "Reader, error)\n") }, none)
    ∧ startInterfaceText (registryEnv base tables) target
        = "\n" ++ GoDoc (registryEnv base tables) (target.Metadata.Name ++ "Reader")
            target.Metadata.Documentation
          ++ "\ntype " ++ target.Metadata.Name ++ "Reader interface \x7b\n" := by
  refine ⟨?_, ?_, rfl⟩
  · intro env pid hres hkind hf
    exact accessorStep_table_reference env t i f pid h1 h2 hres hkind hf
  · exact accessorStep_table_reference (registryEnv base tables) t i f
      ⟨"Table", target.Metadata.Name, ""⟩ h1 h2
      (registryEnv_resolves base tables _ target htarget) rfl hfault

/-- C1 (witness): the field `Condition : Color` of the table `Item` in a registry
that holds the tables `Item` and `Color` of application `store`. -/
theorem C1_table_reference_accessor_witness :
    resolveTable [itemTable, colorTable] ("store" ++ "/" ++ "Color") = some colorTable
    ∧ (accessorStep (registryEnv storeEnv [itemTable, colorTable])
        (NewTableReaderGenerator itemTable "pkg") 1
        (.ok ⟨"Condition", "Color", "", none⟩)).1.definitionsBuffer
      = "\n    //Condition ...\n    Condition() (ColorReader, error)\n"
    ∧ accessorStep (registryEnv storeEnv [itemTable, colorTable])
        (NewTableReaderGenerator itemTable "pkg") 1 (.ok ⟨"Condition", "Color", "", none⟩)
      = ({ NewTableReaderGenerator itemTable "pkg" with
            definitionsBuffer := "" ++ ("\n    "
              ++ GoDoc (registryEnv storeEnv [itemTable, colorTable]) "Condition" none
              ++ "\n    "
              ++ Capitalize (registryEnv storeEnv [itemTable, colorTable]) "Condition"
              ++ "() (" ++ "Color" ++ "Reader, error)\n") }, none)
    ∧ startInterfaceText (registryEnv storeEnv [itemTable, colorTable]) colorTable
      = "\n//ColorReader ...\ntype ColorReader interface \x7b\n" :=
  have h := C1_table_reference_accessor storeEnv [itemTable, colorTable]
    (NewTableReaderGenerator itemTable "pkg") 1 ⟨"Condition", "Color", "", none⟩ colorTable
    (by decide) (by decide) rfl rfl
  ⟨rfl, rfl, h.2.1, rfl⟩

/-- C2 (counterexample): for the field name `unit price` the accessor method name is
`Unit Price`: the first character of the second word is upper-cased too, so the name
is not the field name with only its first character upper-cased (`Unit price`). -/
theorem C2_second_word_is_capitalized_too :
    Capitalize storeEnv "unit price" = "Unit Price"
    ∧ firstRuneTitled storeEnv "unit price" = "Unit price"
    ∧ (StringAccessor storeEnv (NewTableReaderGenerator itemTable "pkg")
        ⟨"unit price", "String", "", none⟩).1.definitionsBuffer
      = "\n    //Unit Price ...\n    Unit Price() string\n"
    ∧ (StringAccessor storeEnv (NewTableReaderGenerator itemTable "pkg")
        ⟨"unit price", "String", "", none⟩).1.definitionsBuffer
      ≠ "\n    " ++ GoDoc storeEnv "unit price" none ++ "\n    "
          ++ firstRuneTitled storeEnv "unit price" ++ "() string\n" := by
  refine ⟨rfl, rfl, rfl, ?_⟩
  decide

/-- C2 (amended): for every field name that contains no separator character of
`strings.Title` (anything but letters, digits and the underscore), the method name
emitted by each of the five accessor shapes is the field name with its first
character title-cased and every other character unchanged. -/
theorem C2_method_name_of_separator_free_field_name (env : Env) (t : TableReaderGenerator)
    (f : Field) (fn : Nat) (tableName enumName : String) (hfree : FaultFree env)
    (hname : ∀ c ∈ f.Name.data, isSeparator env c = false) :
    Capitalize env f.Name = firstRuneTitled env f.Name
    ∧ (StringAccessor env t f).1.definitionsBuffer
        = t.definitionsBuffer ++ ("\n    " ++ GoDoc env f.Name f.Documentation ++ "\n    "
            ++ firstRuneTitled env f.Name ++ "() string\n")
    ∧ (VectorStringAccessor env t f).1.definitionsBuffer
        = t.definitionsBuffer ++ ("\n    " ++ GoDoc env f.Name f.Documentation ++ "\n    "
            ++ firstRuneTitled env f.Name ++ "() hybrids.VectorStringReader\n")
    ∧ (VectorTableAccessor env t f fn tableName).1.definitionsBuffer
        = t.definitionsBuffer ++ ("\n    " ++ GoDoc env f.Name f.Documentation ++ "\n    "
            ++ firstRuneTitled env f.Name ++ "() " ++ ("Vector" ++ tableName)
            ++ "Reader\n")
    ∧ (TableAccessor env t f tableName).1.definitionsBuffer
        = t.definitionsBuffer ++ ("\n    " ++ GoDoc env f.Name f.Documentation ++ "\n    "
            ++ firstRuneTitled env f.Name ++ "() (" ++ tableName ++ "Reader, error)\n")
    ∧ (EnumerationAccessor env t f enumName).1.definitionsBuffer
        = t.definitionsBuffer ++ ("\n    " ++ GoDoc env f.Name f.Documentation ++ "\n    "
            ++ firstRuneTitled env f.Name ++ "() " ++ enumName ++ "\n") := by
  have hcap : Capitalize env f.Name = firstRuneTitled env f.Name :=
    Title_of_no_separator env f.Name hname
  refine ⟨hcap, ?_, ?_, ?_, ?_, ?_⟩
  · rw [StringAccessor_of_no_fault hfree, ← hcap]; rfl
  · rw [VectorStringAccessor_of_no_fault hfree, ← hcap]; rfl
  · rw [VectorTableAccessor_of_no_fault hfree, ← hcap]; rfl
  · rw [TableAccessor_of_no_fault hfree, ← hcap]; rfl
  · rw [EnumerationAccessor_of_no_fault hfree, ← hcap]; rfl

/-- C2 (witness): the amended statement at the field `unit_price : String`. -/
theorem C2_method_name_of_separator_free_field_name_witness :
    FaultFree storeEnv
    ∧ (∀ c ∈ "unit_price".data, isSeparator storeEnv c = false)
    ∧ Capitalize storeEnv "unit_price" = "Unit_price"
    ∧ (StringAccessor storeEnv (NewTableReaderGenerator itemTable "pkg")
        ⟨"unit_price", "String", "", none⟩).1.definitionsBuffer
      = "" ++ ("\n    " ++ GoDoc storeEnv "unit_price" none ++ "\n    "
            ++ firstRuneTitled storeEnv "unit_price" ++ "() string\n") :=
  have h := C2_method_name_of_separator_free_field_name storeEnv
    (NewTableReaderGenerator itemTable "pkg") ⟨"unit_price", "String", "", none⟩ 0
    "Color" "Shade" storeEnv_faultFree (by decide)
  ⟨storeEnv_faultFree, by decide, h.1, h.2.1⟩

/-- C3: for the field name `sku` with short text `short` and long text `long`, both
non-empty, `GoDoc` returns `Sku short` and `long` on two lines without any comment
marker: the text does not start with `//`, whatever `utils.CommentGolang` does. -/
theorem C3_GoDoc_short_and_long_is_not_a_comment (env : Env) :
    GoDoc env "sku" (some ⟨"short", "long"⟩) = "Sku short\nlong"
    ∧ ¬ ("//".data <+: (GoDoc env "sku" (some ⟨"short", "long"⟩)).data) := by
  refine ⟨rfl, ?_⟩
  have h : GoDoc env "sku" (some ⟨"short", "long"⟩) = "Sku short\nlong" := rfl
  rw [h]
  decide

/-- C4: a field that resolves to nothing producible leaves the generator state as it
is and returns no error, and `CreateAccessors` on the table without that field ends
in the same state (import set, definitions buffer, auxiliary buffer) with the same
error result as on the table with it. -/
theorem C4_unproducible_field_is_skipped (env : Env) (t : TableReaderGenerator)
    (md : Metadata) (pre post : List (Except Error Field)) (f : Field)
    (htable : t.table = ⟨md, pre ++ .ok f :: post⟩)
    (hf : Unproducible env md.Application f) :
    (∀ (s : TableReaderGenerator) (i : Nat),
        s.table.Metadata.Application = md.Application →
        accessorStep env s i (.ok f) = (s, none))
    ∧ CreateAccessors env (withTable t ⟨md, pre ++ post⟩)
        = (withTable (CreateAccessors env t).1 ⟨md, pre ++ post⟩,
            (CreateAccessors env t).2) := by
  constructor
  · intro s i hs
    exact accessorStep_of_unproducible env s i f (by rw [hs]; exact hf)
  · exact CreateAccessors_without env t md pre post f htable hf

/-- C4 (witness): the field `Owner : Person` of `danglingTable`, whose token the
resolver of `storeEnv` does not know. -/
theorem C4_unproducible_field_is_skipped_witness :
    Unproducible storeEnv "store" ⟨"Owner", "Person", "", none⟩
    ∧ CreateAccessors storeEnv
        (withTable (NewTableReaderGenerator danglingTable "pkg") danglingTableWithout)
      = (withTable (CreateAccessors storeEnv
            (NewTableReaderGenerator danglingTable "pkg")).1 danglingTableWithout,
          (CreateAccessors storeEnv (NewTableReaderGenerator danglingTable "pkg")).2) :=
  have hf : Unproducible storeEnv "store" ⟨"Owner", "Person", "", none⟩ :=
    Or.inl ⟨by decide, by decide, Or.inl rfl⟩
  ⟨hf, (C4_unproducible_field_is_skipped storeEnv
      (NewTableReaderGenerator danglingTable "pkg") ⟨"Item", "store", none⟩
      [.ok ⟨"SKU", "String", "", none⟩] [.ok ⟨"Tags", "Vector", "String", none⟩]
      ⟨"Owner", "Person", "", none⟩ rfl hf).2⟩

/-- C5 (amended): on a generator whose import set is empty, `CreateAccessors` leaves an import
set that is either empty or exactly the one module
`github.com/nebtex/hybrids/golang/hybrids`, and it is empty when no field has type
`Vector` and items `String`; when `CreateAccessors` returns no error, the module is
there exactly once if some field is such a vector, however many there are, and at
each such field the run appends exactly the accessor
`Capitalize(name)() hybrids.VectorStringReader` with its documentation comment. -/
theorem C5_vector_string_import_registered_once (env : Env) (t : TableReaderGenerator)
    (himports : t.imports = [])
    (hpkg : t.hybridsInterfacePackage = "github.com/nebtex/hybrids/golang/hybrids") :
    ((CreateAccessors env t).1.imports = []
      ∨ (CreateAccessors env t).1.imports = ["github.com/nebtex/hybrids/golang/hybrids"])
    ∧ ((¬ ∃ f, Except.ok f ∈ t.table.Fields ∧ f.Type_ = "Vector" ∧ f.Items = "String") →
        (CreateAccessors env t).1.imports = [])
    ∧ ((CreateAccessors env t).2 = none →
        (∃ f, Except.ok f ∈ t.table.Fields ∧ f.Type_ = "Vector" ∧ f.Items = "String") →
        (CreateAccessors env t).1.imports = ["github.com/nebtex/hybrids/golang/hybrids"])
    ∧ (∀ (t' : TableReaderGenerator) (pre post : List (Except Error Field)) (f : Field),
        CreateAccessors env t = (t', none) →
        t.table.Fields = pre ++ .ok f :: post → f.Type_ = "Vector" → f.Items = "String" →
        ∃ s s', CreateAccessorsFrom env 0 pre t = (s, none)
          ∧ accessorStep env s pre.length (.ok f) = (s', none)
          ∧ s'.definitionsBuffer = s.definitionsBuffer
              ++ ("\n    " ++ GoDoc env f.Name f.Documentation ++ "\n    "
                ++ Capitalize env f.Name ++ "() hybrids.VectorStringReader\n")
          ∧ CreateAccessorsFrom env (pre.length + 1) post s' = (t', none)) := by
  obtain ⟨hor, hnone⟩ := CreateAccessorsFrom_imports_any env t.table.Fields 0 t
  rw [himports, hpkg, AddImport_nil] at hor
  rw [himports] at hnone
  refine ⟨hor, hnone, ?_, ?_⟩
  · intro herr hex
    have hrun : CreateAccessorsFrom env 0 t.table.Fields t
        = ((CreateAccessors env t).1, none) := by
      rw [← herr]
      rfl
    obtain ⟨hyes, _⟩ := CreateAccessorsFrom_imports env t.table.Fields 0 t _ hrun
    rw [hyes hex, himports, hpkg, AddImport_nil]
  · intro t' pre post f hrun hfields h1 h2
    unfold CreateAccessors at hrun
    rw [hfields, CreateAccessorsFrom_append] at hrun
    generalize hpre : CreateAccessorsFrom env 0 pre t = res at hrun
    rcases res with ⟨s, _ | e⟩
    · simp only [CreateAccessorsFrom, Nat.zero_add] at hrun
      generalize hstep : accessorStep env s pre.length (.ok f) = res at hrun
      rcases res with ⟨s', _ | e⟩
      · simp only at hrun
        exact ⟨s, s', rfl, hstep, accessorStep_vectorString env s s' _ f h1 h2 hstep, hrun⟩
      · simp at hrun
    · simp at hrun

/-- C5 (counterexample): the table `brokenTable` has the field `Tags` of type `Vector`
and items `String`, but its second field cannot be read: `CreateAccessors` stops
there with the error, before `Tags`, and the import set stays empty. -/
theorem C5_import_missing_after_failed_run :
    Except.ok ⟨"Tags", "Vector", "String", none⟩ ∈ brokenTable.Fields
    ∧ (CreateAccessors storeEnv (NewTableReaderGenerator brokenTable "pkg")).2
      = some "field unreadable"
    ∧ (CreateAccessors storeEnv (NewTableReaderGenerator brokenTable "pkg")).1.imports
      = [] :=
  ⟨List.Mem.tail _ (List.Mem.tail _ (List.Mem.head _)), rfl, rfl⟩

/-- C5 (witness): the table `tagsTable`, which has three vector-of-string fields and
registers the module once, and the table `itemTable`, which has no such field. -/
theorem C5_vector_string_import_registered_once_witness :
    CreateAccessors storeEnv (NewTableReaderGenerator tagsTable "pkg")
      = ({ NewTableReaderGenerator tagsTable "pkg" with
            imports := ["github.com/nebtex/hybrids/golang/hybrids"],
            definitionsBuffer :=
              "\n    //Tags ...\n    Tags() hybrids.VectorStringReader\n"
              ++ "\n    //SKU ...\n    SKU() string\n"
              ++ "\n    //Labels ...\n    Labels() hybrids.VectorStringReader\n"
              ++ "\n    //Notes ...\n    Notes() hybrids.VectorStringReader\n" },
          none)
    ∧ (CreateAccessors storeEnv (NewTableReaderGenerator tagsTable "pkg")).1.imports
      = ["github.com/nebtex/hybrids/golang/hybrids"]
    ∧ (CreateAccessors storeEnv (NewTableReaderGenerator itemTable "pkg")).1.imports = []
    ∧ (∃ s s', CreateAccessorsFrom storeEnv 0
          [.ok ⟨"Tags", "Vector", "String", none⟩, .ok ⟨"SKU", "String", "", none⟩]
          (NewTableReaderGenerator tagsTable "pkg") = (s, none)
        ∧ accessorStep storeEnv s 2 (.ok ⟨"Labels", "Vector", "String", none⟩) = (s', none)
        ∧ s'.definitionsBuffer = s.definitionsBuffer
            ++ ("\n    " ++ GoDoc storeEnv "Labels" none ++ "\n    "
              ++ Capitalize storeEnv "Labels" ++ "() hybrids.VectorStringReader\n")
        ∧ CreateAccessorsFrom storeEnv 3 [.ok ⟨"Notes", "Vector", "String", none⟩] s'
            = ((CreateAccessors storeEnv (NewTableReaderGenerator tagsTable "pkg")).1,
                none)) :=
  ⟨rfl,
    (C5_vector_string_import_registered_once storeEnv
      (NewTableReaderGenerator tagsTable "pkg") rfl rfl).2.2.1 rfl
      ⟨⟨"Labels", "Vector", "String", none⟩,
        List.Mem.tail _ (List.Mem.tail _ (List.Mem.head _)), rfl, rfl⟩,
    (C5_vector_string_import_registered_once storeEnv
      (NewTableReaderGenerator itemTable "pkg") rfl rfl).2.1
      (fun ⟨g, hm, hg1, _⟩ => by
        rcases List.mem_cons.mp hm with h | hm
        · cases h; exact absurd hg1 (by decide)
        · rcases List.mem_cons.mp hm with h | hm
          · cases h; exact absurd hg1 (by decide)
          · exact absurd hm (List.not_mem_nil _)),
    (C5_vector_string_import_registered_once storeEnv
      (NewTableReaderGenerator tagsTable "pkg") rfl rfl).2.2.2 _
      [.ok ⟨"Tags", "Vector", "String", none⟩, .ok ⟨"SKU", "String", "", none⟩]
      [.ok ⟨"Notes", "Vector", "String", none⟩] ⟨"Labels", "Vector", "String", none⟩
      rfl rfl rfl rfl⟩

/-- C6: when `Generate` succeeds on a fresh generator, for a table with any fields, the
auxiliary buffer holds exactly one rendering of the `CreateVector` template for the
table's name, the sink receives it as the last region of the output, and a second
table with the same name gets the same auxiliary region whatever its fields are. -/
theorem C6_vector_wrapper_emitted_once (env : Env) (tbl tbl2 : Table) (ip ip2 : String)
    (wr wr2 : Writer) (t' t2' : TableReaderGenerator) (wr' wr2' : Writer)
    (h : Generate env (NewTableReaderGenerator tbl ip) wr = ((t', wr'), none))
    (h2 : Generate env (NewTableReaderGenerator tbl2 ip2) wr2 = ((t2', wr2'), none))
    (hname : env.TableName tbl2 = env.TableName tbl) :
    (assemble env (NewTableReaderGenerator tbl ip)).1.functionsBuffer
        = createVectorText (env.TableName tbl)
    ∧ wr'.written = wr.written
        ++ env.importsText (assemble env (NewTableReaderGenerator tbl ip)).1.imports
        ++ (assemble env (NewTableReaderGenerator tbl ip)).1.definitionsBuffer
        ++ createVectorText (env.TableName tbl)
    ∧ (assemble env (NewTableReaderGenerator tbl2 ip2)).1.functionsBuffer
        = (assemble env (NewTableReaderGenerator tbl ip)).1.functionsBuffer := by
  obtain ⟨t4, ha, hflush⟩ := Generate_ok env _ _ _ _ h
  obtain ⟨s4, ha2, _⟩ := Generate_ok env _ _ _ _ h2
  obtain ⟨_, _, _, _, _, _, hfun, _⟩ := assemble_ok env _ _ ha
  obtain ⟨_, _, _, _, _, _, hfun2, _⟩ := assemble_ok env _ _ ha2
  have hfresh : (NewTableReaderGenerator tbl ip).functionsBuffer = "" := rfl
  have hfresh2 : (NewTableReaderGenerator tbl2 ip2).functionsBuffer = "" := rfl
  have htbl : (NewTableReaderGenerator tbl ip).table = tbl := rfl
  have htbl2 : (NewTableReaderGenerator tbl2 ip2).table = tbl2 := rfl
  rw [hfresh, htbl, String.empty_append] at hfun
  rw [hfresh2, htbl2, String.empty_append, hname] at hfun2
  obtain ⟨hw, _, _, _⟩ := FlushBuffers_ok env _ _ _ _ hflush
  rw [ha, ha2]
  refine ⟨hfun, ?_, ?_⟩
  · rw [hw, hfun]
  · simp only
    rw [hfun, hfun2]

/-- C6 (witness): the table `Item` without fields and the table `Item` with two
fields, both written to a sink that accepts everything. -/
theorem C6_vector_wrapper_emitted_once_witness :
    (Generate storeEnv (NewTableReaderGenerator ⟨⟨"Item", "store", none⟩, []⟩ "pkg")
        openSink).2 = none
    ∧ (assemble storeEnv
        (NewTableReaderGenerator ⟨⟨"Item", "store", none⟩, []⟩ "pkg")).1.functionsBuffer
      = createVectorText "Item"
    ∧ (assemble storeEnv (NewTableReaderGenerator itemTable "pkg")).1.functionsBuffer
      = (assemble storeEnv
          (NewTableReaderGenerator ⟨⟨"Item", "store", none⟩, []⟩ "pkg")).1.functionsBuffer :=
  have h := C6_vector_wrapper_emitted_once storeEnv ⟨⟨"Item", "store", none⟩, []⟩ itemTable
    "pkg" "pkg" openSink openSink _ _ _ _ rfl rfl rfl
  ⟨rfl, h.1, h.2.2⟩

/-- C7: when `Generate` succeeds on a fresh generator, the sink receives, after what it
held before, exactly the import block, then the whole primary interface (header,
the accessors that `CreateAccessors` appended, closing brace), then the vector-wrapper
interface. -/
theorem C7_flush_order (env : Env) (tbl : Table) (ip : String) (wr wr' : Writer)
    (t' : TableReaderGenerator)
    (h : Generate env (NewTableReaderGenerator tbl ip) wr = ((t', wr'), none)) :
    ∃ t2 accessors,
      CreateAccessors env (StartInterface env (NewTableReaderGenerator tbl ip)).1
        = (t2, none)
      ∧ t2.definitionsBuffer = startInterfaceText env tbl ++ accessors
      ∧ wr'.written = wr.written
          ++ env.importsText t2.imports
          ++ (startInterfaceText env tbl ++ accessors ++ "\n\x7d\n")
          ++ createVectorText (env.TableName tbl) := by
  obtain ⟨t4, ha, hflush⟩ := Generate_ok env _ _ _ _ h
  obtain ⟨t2, accessors, hc, _, hdefs2, hdefs4, hfun, himp⟩ := assemble_ok env _ _ ha
  have hd : (NewTableReaderGenerator tbl ip).definitionsBuffer = "" := rfl
  have hf : (NewTableReaderGenerator tbl ip).functionsBuffer = "" := rfl
  have htbl : (NewTableReaderGenerator tbl ip).table = tbl := rfl
  rw [hd, htbl, String.empty_append] at hdefs2 hdefs4
  rw [hf, htbl, String.empty_append] at hfun
  obtain ⟨hw, _, _, _⟩ := FlushBuffers_ok env _ _ _ _ hflush
  refine ⟨t2, accessors, hc, hdefs2, ?_⟩
  rw [hw, hdefs4, hfun, himp]

/-- C7 (witness): the table `Item` written to a sink that already holds a package
clause. -/
theorem C7_flush_order_witness :
    (Generate storeEnv (NewTableReaderGenerator itemTable "pkg")
        ⟨"package store\n", none⟩).1.2.written
      = "package store\n" ++ "" ++
        ("\n//ItemReader ...\ntype ItemReader interface \x7b\n"
          ++ "\n    //SKU ...\n    SKU() string\n\n    //Condition ...\n    Condition() (ColorReader, error)\n"
          ++ "\n\x7d\n")
        ++ createVectorText "Item"
    ∧ ∃ t2 accessors,
      CreateAccessors storeEnv
          (StartInterface storeEnv (NewTableReaderGenerator itemTable "pkg")).1
        = (t2, none)
      ∧ t2.definitionsBuffer = startInterfaceText storeEnv itemTable ++ accessors
      ∧ (Generate storeEnv (NewTableReaderGenerator itemTable "pkg")
          ⟨"package store\n", none⟩).1.2.written = "package store\n"
          ++ storeEnv.importsText t2.imports
          ++ (startInterfaceText storeEnv itemTable ++ accessors ++ "\n\x7d\n")
          ++ createVectorText (storeEnv.TableName itemTable) :=
  ⟨rfl, C7_flush_order storeEnv itemTable "pkg" ⟨"package store\n", none⟩ _ _ rfl⟩

/-- C8: when `StartInterface`, `CreateAccessors` or `CreateVector` returns an error,
`Generate` returns that same error and the sink is left exactly as it was;
`EndInterface` never returns an error; and when `CreateAccessors` fails, its final
state is the state right after the failing field: the fields before it were
processed without error and no field after it was processed. -/
theorem C8_errors_before_the_flush (env : Env) (t : TableReaderGenerator) (wr : Writer)
    (e : Error)
    (h : (StartInterface env t).2 = some e
      ∨ ((StartInterface env t).2 = none
          ∧ (CreateAccessors env (StartInterface env t).1).2 = some e)
      ∨ ((StartInterface env t).2 = none
          ∧ (CreateAccessors env (StartInterface env t).1).2 = none
          ∧ (CreateVector env
              (CreateAccessors env (StartInterface env t).1).1).2 = some e)) :
    (Generate env t wr).2 = some e
    ∧ (Generate env t wr).1.2 = wr
    ∧ (∀ s, (EndInterface s).2 = none)
    ∧ (∀ (s s' : TableReaderGenerator) (e' : Error),
        CreateAccessors env s = (s', some e') →
        ∃ pre r post s0, s.table.Fields = pre ++ r :: post
          ∧ CreateAccessorsFrom env 0 pre s = (s0, none)
          ∧ accessorStep env s0 pre.length r = (s', some e')) := by
  have hgen : (Generate env t wr).2 = some e ∧ (Generate env t wr).1.2 = wr := by
    unfold Generate
    generalize StartInterface env t = r1 at h
    rcases r1 with ⟨t1, _ | e1⟩
    · simp only at h ⊢
      generalize CreateAccessors env t1 = r2 at h
      rcases r2 with ⟨t2, _ | e2⟩
      · simp only at h ⊢
        generalize CreateVector env t2 = r3 at h
        rcases r3 with ⟨t3, _ | e3⟩
        · simp at h
        · simp only at h ⊢
          rcases h with h | h | h
          · simp at h
          · simp at h
          · exact ⟨h.2.2, trivial⟩
      · simp only at h ⊢
        rcases h with h | h | h
        · simp at h
        · exact ⟨h.2, trivial⟩
        · simp at h
    · simp only at h ⊢
      rcases h with h | h | h
      · exact ⟨h, trivial⟩
      · simp at h
      · simp at h
  refine ⟨hgen.1, hgen.2, fun _ => rfl, ?_⟩
  intro s s' e' hfail
  obtain ⟨pre, r, post, s0, hrs, hpre, hstep⟩ :=
    CreateAccessorsFrom_error env s.table.Fields 0 s s' e' hfail
  rw [Nat.zero_add] at hstep
  exact ⟨pre, r, post, s0, hrs, hpre, hstep⟩

/-- C8 (witness): the table `brokenTable`, whose second field cannot be read, and the
table `itemTable` under a template engine that fails on the vector wrapper. -/
theorem C8_errors_before_the_flush_witness :
    (CreateAccessors storeEnv
        (StartInterface storeEnv (NewTableReaderGenerator brokenTable "pkg")).1).2
      = some "field unreadable"
    ∧ (Generate storeEnv (NewTableReaderGenerator brokenTable "pkg") openSink).2
      = some "field unreadable"
    ∧ (Generate storeEnv (NewTableReaderGenerator brokenTable "pkg") openSink).1.2
      = openSink
    ∧ (Generate storeEnv (NewTableReaderGenerator brokenTable "pkg")
        openSink).1.1.definitionsBuffer
      = "\n//ItemReader ...\ntype ItemReader interface \x7b\n"
        ++ "\n    //SKU ...\n    SKU() string\n"
    ∧ (Generate faultyEnv (NewTableReaderGenerator itemTable "pkg") openSink).2
      = some "render failure"
    ∧ (Generate faultyEnv (NewTableReaderGenerator itemTable "pkg") openSink).1.2
      = openSink :=
  have h := C8_errors_before_the_flush storeEnv (NewTableReaderGenerator brokenTable "pkg")
    openSink "field unreadable" (Or.inr (Or.inl ⟨rfl, rfl⟩))
  have h2 := C8_errors_before_the_flush faultyEnv (NewTableReaderGenerator itemTable "pkg")
    openSink "render failure" (Or.inr (Or.inr ⟨rfl, rfl, rfl⟩))
  ⟨rfl, h.1, h.2.1, rfl, h2.1, h2.2.1⟩

/-- C9 (counterexample): the resolver of `storeEnv` returns nil for the token
`store/Person` of the field `Owner` of `danglingTable`, and `Generate` completes
successfully all the same, with the other two accessors written. -/
theorem C9_generate_succeeds_despite_unresolved_token :
    storeEnv.NewIDReader ("store" ++ "/" ++ "Person") = none
    ∧ Except.ok ⟨"Owner", "Person", "", none⟩ ∈ danglingTable.Fields
    ∧ (Generate storeEnv (NewTableReaderGenerator danglingTable "pkg") openSink).2 = none
    ∧ (Generate storeEnv (NewTableReaderGenerator danglingTable "pkg")
        openSink).1.2.written
      = "import \"github.com/nebtex/hybrids/golang/hybrids\"\n"
        ++ "\n//ItemReader ...\ntype ItemReader interface \x7b\n"
        ++ "\n    //SKU ...\n    SKU() string\n"
        ++ "\n    //Tags ...\n    Tags() hybrids.VectorStringReader\n"
        ++ "\n\x7d\n" ++ createVectorText "Item" :=
  ⟨rfl, List.Mem.tail _ (List.Mem.head _), rfl, rfl⟩

/-- C9 (amended): a field whose resolver call returns nil is skipped without error:
its loop step leaves the state unchanged, and `Generate` returns the same error
result and leaves the same sink as for the table without that field. -/
theorem C9_unresolved_token_is_skipped (env : Env) (md : Metadata)
    (pre post : List (Except Error Field)) (f : Field) (ip : String) (wr : Writer)
    (hf : ResolverFails env md.Application f)
    (hname : env.TableName ⟨md, pre ++ post⟩ = env.TableName ⟨md, pre ++ .ok f :: post⟩) :
    (∀ (s : TableReaderGenerator) (i : Nat),
        s.table.Metadata.Application = md.Application →
        accessorStep env s i (.ok f) = (s, none))
    ∧ (Generate env (NewTableReaderGenerator ⟨md, pre ++ .ok f :: post⟩ ip) wr).2
        = (Generate env (NewTableReaderGenerator ⟨md, pre ++ post⟩ ip) wr).2
    ∧ (Generate env (NewTableReaderGenerator ⟨md, pre ++ .ok f :: post⟩ ip) wr).1.2
        = (Generate env (NewTableReaderGenerator ⟨md, pre ++ post⟩ ip) wr).1.2 := by
  have hu := Unproducible_of_ResolverFails env md.Application f hf
  have hnew : NewTableReaderGenerator ⟨md, pre ++ post⟩ ip
      = withTable (NewTableReaderGenerator ⟨md, pre ++ .ok f :: post⟩ ip)
          ⟨md, pre ++ post⟩ := rfl
  have hgen := Generate_without env
    (NewTableReaderGenerator ⟨md, pre ++ .ok f :: post⟩ ip) wr md pre post f rfl hu hname
  refine ⟨?_, ?_, ?_⟩
  · intro s i hs
    exact accessorStep_of_unproducible env s i f (by rw [hs]; exact hu)
  · rw [hnew, hgen]
  · rw [hnew, hgen]

/-- C9 (witness): the field `Owner : Person` of `danglingTable` under `storeEnv`. -/
theorem C9_unresolved_token_is_skipped_witness :
    ResolverFails storeEnv "store" ⟨"Owner", "Person", "", none⟩
    ∧ (Generate storeEnv (NewTableReaderGenerator danglingTable "pkg") openSink).2
        = (Generate storeEnv (NewTableReaderGenerator danglingTableWithout "pkg")
            openSink).2
    ∧ (Generate storeEnv (NewTableReaderGenerator danglingTable "pkg") openSink).1.2
        = (Generate storeEnv (NewTableReaderGenerator danglingTableWithout "pkg")
            openSink).1.2 :=
  have hf : ResolverFails storeEnv "store" ⟨"Owner", "Person", "", none⟩ :=
    Or.inl ⟨by decide, by decide, rfl⟩
  ⟨hf, (C9_unresolved_token_is_skipped storeEnv ⟨"Item", "store", none⟩
      [.ok ⟨"SKU", "String", "", none⟩] [.ok ⟨"Tags", "Vector", "String", none⟩]
      ⟨"Owner", "Person", "", none⟩ "pkg" openSink hf rfl).2⟩

/-- C10 (counterexample): for the table `Item` of application `store`, where
`store/Color` resolves to a table named `Color`, the text that `Generate` writes is
`itemReaderText`, and the line `Get(i int) (ItemReader, error)` occurs nowhere in it:
the wrapper declares `Get(i int) (item ItemReader, err error)`. -/
theorem C10_get_line_has_named_results :
    storeEnv.NewIDReader ("store" ++ "/" ++ "Color") = some ⟨"Table", "Color", ""⟩
    ∧ Generate storeEnv (NewTableReaderGenerator itemTable "pkg") openSink
      = ((NewTableReaderGenerator itemTable "pkg", ⟨itemReaderText, none⟩), none)
    ∧ ¬ ("Get(i int) (ItemReader, error)".data <:+: itemReaderText.data) := by
  refine ⟨rfl, rfl, ?_⟩
  decide

/-- C10 (amended): for the table `Item` of application `store` with the fields
`SKU : String` and `Condition : Color`, where `store/Color` resolves to a table
reference whose identifier is `Color`, `Generate` succeeds on a sink that accepts
everything and writes the import block followed by `itemReaderText`: the interface
`ItemReader` with the lines `SKU() string` and `Condition() (ColorReader, error)`,
and the interface `VectorItemReader` with the lines `Len() int` and
`Get(i int) (item ItemReader, err error)`. -/
theorem C10_item_example (env : Env) (pid : IDReader) (ip : String) (wr : Writer)
    (hfree : FaultFree env) (hname : env.TableName itemTable = "Item")
    (hres : env.NewIDReader "store/Color" = some pid) (hkind : pid.Kind = "Table")
    (hid : pid.ID = "Color") (hroom : wr.room = none) :
    (Generate env (NewTableReaderGenerator itemTable ip) wr).2 = none
    ∧ (Generate env (NewTableReaderGenerator itemTable ip) wr).1.2.written
        = wr.written ++ env.importsText [] ++ itemReaderText
    ∧ "type ItemReader interface \x7b\n".data <:+: itemReaderText.data
    ∧ "\n    SKU() string\n".data <:+: itemReaderText.data
    ∧ "\n    Condition() (ColorReader, error)\n".data <:+: itemReaderText.data
    ∧ "type VectorItemReader interface \x7b\n".data <:+: itemReaderText.data
    ∧ "\n    Len() int\n".data <:+: itemReaderText.data
    ∧ "\n    Get(i int) (item ItemReader, err error)\n".data
        <:+: itemReaderText.data := by
  have hstart : StartInterface env (NewTableReaderGenerator itemTable ip)
      = ({ NewTableReaderGenerator itemTable ip with
            definitionsBuffer := "\n//ItemReader ...\ntype ItemReader interface \x7b\n" },
          none) := by
    unfold StartInterface
    rw [Execute_of_no_fault (hfree _ _)]
    have htext : startInterfaceText env (NewTableReaderGenerator itemTable ip).table
        = "\n//ItemReader ...\ntype ItemReader interface \x7b\n" := by
      unfold startInterfaceText
      have h : (NewTableReaderGenerator itemTable ip).table = itemTable := rfl
      rw [h, hname]
      rfl
    rw [htext]
    rfl
  have hacc : CreateAccessors env
      { NewTableReaderGenerator itemTable ip with
        definitionsBuffer := "\n//ItemReader ...\ntype ItemReader interface \x7b\n" }
      = ({ NewTableReaderGenerator itemTable ip with
            definitionsBuffer := "\n//ItemReader ...\ntype ItemReader interface \x7b\n"
              ++ "\n    //SKU ...\n    SKU() string\n"
              ++ "\n    //Condition ...\n    Condition() (ColorReader, error)\n" },
          none) := by
    have htok : ("store" ++ "/" ++ "Color" : String) = "store/Color" := by decide
    have h2 : ∀ s : TableReaderGenerator, s.table = itemTable →
        accessorStep env s 1 (.ok ⟨"Condition", "Color", "", none⟩)
          = ({ s with definitionsBuffer := s.definitionsBuffer
                ++ "\n    //Condition ...\n    Condition() (ColorReader, error)\n" },
              none) := by
      intro s hs
      have hne1 : ¬ ("Color" : String) = "String" := by decide
      have hne2 : ¬ ("Color" : String) = "Vector" := by decide
      have hmd : s.table.Metadata.Application = "store" := by rw [hs]; rfl
      simp only [accessorStep, hne1, hne2, if_false, hmd, htok, hres, hkind, if_true]
      rw [TableAccessor_of_no_fault hfree, hid]
      have hne3 : ¬ (pid.Kind = "EnumerationGroup") := by rw [hkind]; decide
      simp only [hne3, if_false]
      rfl
    unfold CreateAccessors
    show CreateAccessorsFrom env 0
      [.ok ⟨"SKU", "String", "", none⟩, .ok ⟨"Condition", "Color", "", none⟩] _ = _
    simp only [CreateAccessorsFrom]
    have h1 : ∀ s : TableReaderGenerator,
        accessorStep env s 0 (.ok ⟨"SKU", "String", "", none⟩)
          = ({ s with definitionsBuffer := s.definitionsBuffer
                ++ "\n    //SKU ...\n    SKU() string\n" }, none) := by
      intro s
      simp only [accessorStep, if_true]
      rw [StringAccessor_of_no_fault hfree]
      rfl
    rw [h1]
    simp only
    rw [h2 _ rfl]
  have hvec : ∀ s : TableReaderGenerator, s.table = itemTable →
      CreateVector env s
        = ({ s with functionsBuffer := s.functionsBuffer ++ createVectorText "Item" },
            none) := by
    intro s hs
    unfold CreateVector
    rw [Execute_of_no_fault (hfree _ _), hs, hname]
  obtain ⟨written, room⟩ := wr
  simp only at hroom
  subst hroom
  have hgen : Generate env (NewTableReaderGenerator itemTable ip) ⟨written, none⟩
      = ((NewTableReaderGenerator itemTable ip,
          ⟨written ++ env.importsText [] ++ itemReaderText, none⟩), none) := by
    unfold Generate
    rw [hstart]
    simp only
    rw [hacc]
    simp only
    rw [hvec _ rfl]
    simp only [EndInterface]
    rw [FlushBuffers_open]
    have htext : ("\n//ItemReader ...\ntype ItemReader interface \x7b\n"
          ++ "\n    //SKU ...\n    SKU() string\n"
          ++ "\n    //Condition ...\n    Condition() (ColorReader, error)\n"
          ++ ("\n" ++ "\x7d\n")) ++ ("" ++ createVectorText "Item") = itemReaderText := by
      decide
    simp only [Prod.mk.injEq, and_true]
    refine ⟨rfl, ?_⟩
    show Writer.mk (written ++ env.importsText [] ++ _ ++ _) none = _
    rw [String.append_assoc (written ++ env.importsText [])]
    exact congrArg (fun s => Writer.mk (written ++ env.importsText [] ++ s) none) htext
  rw [hgen]
  refine ⟨rfl, rfl, ?_, ?_, ?_, ?_, ?_, ?_⟩ <;> decide

/-- C10 (witness): the amended statement under `storeEnv`, written to an empty sink
that accepts everything. -/
theorem C10_item_example_witness :
    FaultFree storeEnv
    ∧ storeEnv.NewIDReader "store/Color" = some ⟨"Table", "Color", ""⟩
    ∧ (Generate storeEnv (NewTableReaderGenerator itemTable "pkg") openSink).2 = none
    ∧ (Generate storeEnv (NewTableReaderGenerator itemTable "pkg") openSink).1.2.written
        = openSink.written ++ storeEnv.importsText [] ++ itemReaderText :=
  have h := C10_item_example storeEnv ⟨"Table", "Color", ""⟩ "pkg" openSink
    storeEnv_faultFree rfl rfl rfl rfl rfl
  ⟨storeEnv_faultFree, rfl, h.1, h.2.1⟩

/-- C11: two `Generate` passes for the same table, resolver and interface package,
each on a fresh generator, return the same error result and append the same text to
their sinks, whatever the sinks of equal capacity held before; the import set of the
pass has at most one element, so every order of listing it gives the same import
block. -/
theorem C11_generate_is_reproducible (env : Env) (tbl : Table) (ip : String)
    (w1 w2 : String) (room : Option Nat) :
    (∃ out,
      (Generate env (NewTableReaderGenerator tbl ip) ⟨w1, room⟩).1.2.written = w1 ++ out
      ∧ (Generate env (NewTableReaderGenerator tbl ip) ⟨w2, room⟩).1.2.written = w2 ++ out)
    ∧ (Generate env (NewTableReaderGenerator tbl ip) ⟨w1, room⟩).2
        = (Generate env (NewTableReaderGenerator tbl ip) ⟨w2, room⟩).2
    ∧ (Generate env (NewTableReaderGenerator tbl ip) ⟨w1, room⟩).1.1
        = (Generate env (NewTableReaderGenerator tbl ip) ⟨w2, room⟩).1.1
    ∧ (∀ l : List String,
        l.Perm (assemble env (NewTableReaderGenerator tbl ip)).1.imports →
        env.importsText l
          = env.importsText (assemble env (NewTableReaderGenerator tbl ip)).1.imports) := by
  obtain ⟨out, room1, t1, e, h1, h2⟩ :=
    Generate_shift env (NewTableReaderGenerator tbl ip) w1 w2 room
  refine ⟨⟨out, by rw [h1], by rw [h2]⟩, by rw [h1, h2], by rw [h1, h2], ?_⟩
  intro l hperm
  rcases assemble_imports_fresh env tbl ip with h | h
  · rw [h] at hperm ⊢
    rw [List.perm_nil.mp hperm]
  · rw [h] at hperm ⊢
    rw [List.perm_singleton.mp hperm]

/-- C11 (witness): two passes for the table `danglingTableWithout`, one to an empty
sink and one to a sink that holds a package clause. -/
theorem C11_generate_is_reproducible_witness :
    (∃ out,
      (Generate storeEnv (NewTableReaderGenerator danglingTableWithout "pkg")
        ⟨"", none⟩).1.2.written = "" ++ out
      ∧ (Generate storeEnv (NewTableReaderGenerator danglingTableWithout "pkg")
        ⟨"package store\n", none⟩).1.2.written = "package store\n" ++ out)
    ∧ (Generate storeEnv (NewTableReaderGenerator danglingTableWithout "pkg")
        ⟨"", none⟩).2 = none
    ∧ storeEnv.importsText ["github.com/nebtex/hybrids/golang/hybrids"]
        = storeEnv.importsText
            (assemble storeEnv
              (NewTableReaderGenerator danglingTableWithout "pkg")).1.imports :=
  have h := C11_generate_is_reproducible storeEnv danglingTableWithout "pkg" ""
    "package store\n" none
  ⟨h.1, rfl, h.2.2.2 ["github.com/nebtex/hybrids/golang/hybrids"] (List.Perm.refl _)⟩

/-- C12: for a field of type `String`, whatever its items, the loop step appends
exactly the accessor `Capitalize(name)() string` with its documentation comment and
returns no error, leaves the import set as it is, and gives the same result whatever
the symbol resolver answers. -/
theorem C12_string_field_accessor (env : Env) (t : TableReaderGenerator) (i : Nat)
    (f : Field) (resolver : String → Option IDReader) (htype : f.Type_ = "String")
    (hfault : env.templateFault "StringAccessor" (stringAccessorText env f) = none) :
    accessorStep env t i (.ok f)
      = ({ t with definitionsBuffer := t.definitionsBuffer
            ++ ("\n    " ++ GoDoc env f.Name f.Documentation ++ "\n    "
              ++ Capitalize env f.Name ++ "() string\n") }, none)
    ∧ (accessorStep env t i (.ok f)).1.imports = t.imports
    ∧ accessorStep { env with NewIDReader := resolver } t i (.ok f)
        = accessorStep env t i (.ok f) := by
  have hstep : accessorStep env t i (.ok f) = StringAccessor env t f := by
    simp only [accessorStep, htype, if_true]
  have hother : accessorStep { env with NewIDReader := resolver } t i (.ok f)
      = StringAccessor { env with NewIDReader := resolver } t f := by
    simp only [accessorStep, htype, if_true]
  have hval : StringAccessor env t f
      = ({ t with definitionsBuffer := t.definitionsBuffer ++ stringAccessorText env f },
          none) := by
    simp [StringAccessor, Execute_of_no_fault hfault]
  refine ⟨?_, ?_, ?_⟩
  · rw [hstep, hval]
    rfl
  · rw [hstep, hval]
  · rw [hstep, hother]
    unfold StringAccessor Execute
    rw [stringAccessorText_resolver]

/-- C12 (witness): the field `SKU : String` with items `Color`, under an environment
whose resolver knows nothing. -/
theorem C12_string_field_accessor_witness :
    accessorStep storeEnv (NewTableReaderGenerator itemTable "pkg") 0
        (.ok ⟨"SKU", "String", "Color", none⟩)
      = ({ NewTableReaderGenerator itemTable "pkg" with
            definitionsBuffer := "" ++ ("\n    " ++ GoDoc storeEnv "SKU" none ++ "\n    "
              ++ Capitalize storeEnv "SKU" ++ "() string\n") }, none)
    ∧ (accessorStep storeEnv (NewTableReaderGenerator itemTable "pkg") 0
        (.ok ⟨"SKU", "String", "Color", none⟩)).1.definitionsBuffer
      = "\n    //SKU ...\n    SKU() string\n"
    ∧ accessorStep { storeEnv with NewIDReader := fun _ => none }
        (NewTableReaderGenerator itemTable "pkg") 0 (.ok ⟨"SKU", "String", "Color", none⟩)
      = accessorStep storeEnv (NewTableReaderGenerator itemTable "pkg") 0
        (.ok ⟨"SKU", "String", "Color", none⟩) :=
  have h := C12_string_field_accessor storeEnv (NewTableReaderGenerator itemTable "pkg") 0
    ⟨"SKU", "String", "Color", none⟩ (fun _ => none) rfl rfl
  ⟨h.1, rfl, h.2.2⟩

/-- C13: for a field whose type is neither `String` nor `Vector` and whose token
resolves to a reference of kind `EnumerationGroup`, the loop step appends exactly the
accessor `Capitalize(name)() ParentEnumeration`, where the parent enumeration is
named by `Parent().ID()`, returns no error, and does not take the table-reference
branch. -/
theorem C13_enumeration_field_accessor (env : Env) (t : TableReaderGenerator) (i : Nat)
    (f : Field) (pid : IDReader) (h1 : f.Type_ ≠ "String") (h2 : f.Type_ ≠ "Vector")
    (hres : env.NewIDReader (t.table.Metadata.Application ++ "/" ++ f.Type_) = some pid)
    (hkind : pid.Kind = "EnumerationGroup")
    (hfault : env.templateFault "TableReaderGenerator::Interface::EnumerationAccessor"
      (enumerationAccessorText env f pid.ParentID) = none) :
    accessorStep env t i (.ok f)
      = ({ t with definitionsBuffer := t.definitionsBuffer
            ++ ("\n    " ++ GoDoc env f.Name f.Documentation ++ "\n    "
              ++ Capitalize env f.Name ++ "() " ++ pid.ParentID ++ "\n") }, none)
    ∧ (if pid.Kind = "Table" then TableAccessor env t f pid.ID else (t, none)) = (t, none)
    ∧ (accessorStep env t i (.ok f)).1.imports = t.imports := by
  have hnt : ¬ pid.Kind = "Table" := by rw [hkind]; decide
  have hstep : accessorStep env t i (.ok f)
      = EnumerationAccessor env t f pid.ParentID := by
    simp only [accessorStep, h1, h2, if_false, hres, hnt]
    simp only [hkind, if_true]
  have hval : EnumerationAccessor env t f pid.ParentID
      = ({ t with definitionsBuffer :=
            t.definitionsBuffer ++ enumerationAccessorText env f pid.ParentID }, none) := by
    simp [EnumerationAccessor, Execute_of_no_fault hfault]
  refine ⟨?_, ?_, ?_⟩
  · rw [hstep, hval]
    rfl
  · rw [if_neg hnt]
  · rw [hstep, hval]

/-- C13 (witness): the field `Finish : Tint` under `catalogEnv`, where `store/Tint`
is an enumeration group of the enumeration `Shade`. -/
theorem C13_enumeration_field_accessor_witness :
    catalogEnv.NewIDReader ("store" ++ "/" ++ "Tint")
        = some ⟨"EnumerationGroup", "Tint", "Shade"⟩
    ∧ accessorStep catalogEnv (NewTableReaderGenerator itemTable "pkg") 0
        (.ok ⟨"Finish", "Tint", "", none⟩)
      = ({ NewTableReaderGenerator itemTable "pkg" with
            definitionsBuffer := "" ++ ("\n    " ++ GoDoc catalogEnv "Finish" none
              ++ "\n    " ++ Capitalize catalogEnv "Finish" ++ "() " ++ "Shade" ++ "\n") },
          none)
    ∧ (accessorStep catalogEnv (NewTableReaderGenerator itemTable "pkg") 0
        (.ok ⟨"Finish", "Tint", "", none⟩)).1.definitionsBuffer
      = "\n    //Finish ...\n    Finish() Shade\n" :=
  have h := C13_enumeration_field_accessor catalogEnv
    (NewTableReaderGenerator itemTable "pkg") 0 ⟨"Finish", "Tint", "", none⟩
    ⟨"EnumerationGroup", "Tint", "Shade"⟩ (by decide) (by decide) rfl rfl rfl
  ⟨rfl, h.1, rfl⟩

/-- C14: for a field of type `Vector` whose items are not `String` and whose item
token resolves to a reference of kind `Table`, the loop step appends exactly one
accessor, `Capitalize(name)() Vector<TargetTableName>Reader`, with no error result in
the signature, where `<TargetTableName>` is `utils.TableNameFromID` of the
reference; in a schema registry where the item token names the table `target`, the
result type is `Vector<Name of target>Reader`, which is the interface name that
`CreateVector` renders for `target`. -/
theorem C14_vector_of_table_field_accessor (base : Env) (tables : List Table)
    (t : TableReaderGenerator) (i : Nat) (f : Field) (target : Table) (ip : String)
    (h1 : f.Type_ = "Vector") (h2 : f.Items ≠ "String")
    (htarget : resolveTable tables (t.table.Metadata.Application ++ "/" ++ f.Items)
      = some target)
    (hfault : base.templateFault "StringAccessor"
      (vectorTableAccessorText (registryEnv base tables) f target.Metadata.Name) = none)
    (hvector : base.templateFault "TableReaderGenerator::GenerateVector"
      (createVectorText target.Metadata.Name) = none) :
    (∀ (env : Env) (pid : IDReader),
        env.NewIDReader (t.table.Metadata.Application ++ "/" ++ f.Items) = some pid →
        pid.Kind = "Table" →
        env.templateFault "StringAccessor"
          (vectorTableAccessorText env f (env.TableNameFromID pid)) = none →
        accessorStep env t i (.ok f)
          = ({ t with definitionsBuffer := t.definitionsBuffer
                ++ ("\n    " ++ GoDoc env f.Name f.Documentation ++ "\n    "
                  ++ Capitalize env f.Name ++ "() "
                  ++ ("Vector" ++ env.TableNameFromID pid) ++ "Reader\n") }, none))
    ∧ accessorStep (registryEnv base tables) t i (.ok f)
        = ({ t with definitionsBuffer := t.definitionsBuffer
              ++ ("\n    " ++ GoDoc (registryEnv base tables) f.Name f.Documentation
                ++ "\n    " ++ Capitalize (registryEnv base tables) f.Name ++ "() "
                ++ vectorReaderName target.Metadata.Name ++ "\n") }, none)
    ∧ (CreateVector (registryEnv base tables)
        (NewTableReaderGenerator target ip)).1.functionsBuffer
        = "\n//" ++ vectorReaderName target.Metadata.Name ++ " ...\ntype "
          ++ vectorReaderName target.Metadata.Name
          ++ " interface \x7b\n\n    // Returns the current size of this vector\n    Len() int\n\n    //Get the item in the position i, if i < Len(),\n    //if item does not exist should return the default value for the underlying data type\n    //when i > Len() should return an VectorInvalidIndexError\n    Get(i int) (item "
          ++ target.Metadata.Name ++ "Reader, err error)\n\x7d\n"
    ∧ (CreateVector (registryEnv base tables) (NewTableReaderGenerator target ip)).2
        = none := by
  have hcv : CreateVector (registryEnv base tables) (NewTableReaderGenerator target ip)
      = ({ NewTableReaderGenerator target ip with
            functionsBuffer := "" ++ createVectorText target.Metadata.Name }, none) := by
    unfold CreateVector
    rw [Execute_of_no_fault (by exact hvector)]
    rfl
  refine ⟨?_, ?_, ?_, ?_⟩
  · intro env pid hres hkind hf
    exact accessorStep_vector_of_table env t i f pid h1 h2 hres hkind hf
  · have hstep := accessorStep_vector_of_table (registryEnv base tables) t i f
      ⟨"Table", target.Metadata.Name, ""⟩ h1 h2
      (registryEnv_resolves base tables _ target htarget) rfl hfault
    rw [hstep]
    simp [vectorReaderName, registryEnv, specTableNameFromID, String.append_assoc]
  · rw [hcv]
    simp only
    rw [String.empty_append, createVectorText_name]
  · rw [hcv]

/-- C14 (witness): the field `Palette`, a vector of `Color`, of the table `Catalog` in
a registry that holds the tables `Catalog` and `Color`; the target is `Color`. -/
theorem C14_vector_of_table_field_accessor_witness :
    resolveTable [catalogTable, colorTable] ("store" ++ "/" ++ "Color") = some colorTable
    ∧ (accessorStep (registryEnv storeEnv [catalogTable, colorTable])
        (NewTableReaderGenerator catalogTable "pkg") 0
        (.ok ⟨"Palette", "Vector", "Color", none⟩)).1.definitionsBuffer
      = "\n    //Palette ...\n    Palette() VectorColorReader\n"
    ∧ (CreateVector (registryEnv storeEnv [catalogTable, colorTable])
        (NewTableReaderGenerator colorTable "pkg")).1.functionsBuffer
      = "\n//VectorColorReader ...\ntype VectorColorReader interface \x7b\n\n    // Returns the current size of this vector\n    Len() int\n\n    //Get the item in the position i, if i < Len(),\n    //if item does not exist should return the default value for the underlying data type\n    //when i > Len() should return an VectorInvalidIndexError\n    Get(i int) (item ColorReader, err error)\n\x7d\n"
    ∧ (CreateVector (registryEnv storeEnv [catalogTable, colorTable])
        (NewTableReaderGenerator colorTable "pkg")).1.functionsBuffer
      = "\n//" ++ vectorReaderName "Color" ++ " ...\ntype " ++ vectorReaderName "Color"
          ++ " interface \x7b\n\n    // Returns the current size of this vector\n    Len() int\n\n    //Get the item in the position i, if i < Len(),\n    //if item does not exist should return the default value for the underlying data type\n    //when i > Len() should return an VectorInvalidIndexError\n    Get(i int) (item "
          ++ "Color" ++ "Reader, err error)\n\x7d\n" :=
  have h := C14_vector_of_table_field_accessor storeEnv [catalogTable, colorTable]
    (NewTableReaderGenerator catalogTable "pkg") 0 ⟨"Palette", "Vector", "Color", none⟩
    colorTable "pkg" rfl (by decide) rfl rfl rfl
  ⟨rfl, rfl, rfl, h.2.2.1⟩

/-- C15: when `CreateAccessors` returns no error, the text it appends to the
definitions buffer is the accessor texts of the fields `0 .. Len()-1`, each possibly
empty, one after the other in field order, so that the accessor of an earlier field
stands before that of a later one; and in every run what it appends is a leading part
of that text. -/
theorem C15_accessors_in_field_order (env : Env) (t : TableReaderGenerator) :
    (∀ t', CreateAccessors env t = (t', none) →
      t'.definitionsBuffer = t.definitionsBuffer
        ++ joinTexts (t.table.Fields.map (accessorText env t.table.Metadata.Application)))
    ∧ (∀ t' pre a mid b post, CreateAccessors env t = (t', none) →
      t.table.Fields = pre ++ a :: (mid ++ b :: post) →
      t'.definitionsBuffer = t.definitionsBuffer
        ++ joinTexts (pre.map (accessorText env t.table.Metadata.Application))
        ++ accessorText env t.table.Metadata.Application a
        ++ joinTexts (mid.map (accessorText env t.table.Metadata.Application))
        ++ accessorText env t.table.Metadata.Application b
        ++ joinTexts (post.map (accessorText env t.table.Metadata.Application)))
    ∧ (∃ rest, (CreateAccessors env t).1.definitionsBuffer ++ rest
        = t.definitionsBuffer
          ++ joinTexts (t.table.Fields.map
              (accessorText env t.table.Metadata.Application))) := by
  refine ⟨?_, ?_, ?_⟩
  · intro t' h
    exact CreateAccessorsFrom_text env t.table.Fields 0 t t' h
  · intro t' pre a mid b post h hfields
    have hall := CreateAccessorsFrom_text env t.table.Fields 0 t t' h
    rw [hall, hfields]
    simp [joinTexts, joinTexts_append, String.append_assoc]
  · exact CreateAccessorsFrom_text_any env t.table.Fields 0 t

/-- C15 (witness): the table `Item`, whose accessor `SKU` stands before its accessor
`Condition`. -/
theorem C15_accessors_in_field_order_witness :
    CreateAccessors storeEnv (NewTableReaderGenerator itemTable "pkg")
      = ({ NewTableReaderGenerator itemTable "pkg" with
            definitionsBuffer := "\n    //SKU ...\n    SKU() string\n"
              ++ "\n    //Condition ...\n    Condition() (ColorReader, error)\n" }, none)
    ∧ (CreateAccessors storeEnv (NewTableReaderGenerator itemTable "pkg")).1.definitionsBuffer
      = "" ++ joinTexts (itemTable.Fields.map (accessorText storeEnv "store"))
    ∧ accessorText storeEnv "store" (.ok ⟨"SKU", "String", "", none⟩)
      = "\n    //SKU ...\n    SKU() string\n"
    ∧ accessorText storeEnv "store" (.ok ⟨"Condition", "Color", "", none⟩)
      = "\n    //Condition ...\n    Condition() (ColorReader, error)\n" :=
  ⟨rfl, (C15_accessors_in_field_order storeEnv
      (NewTableReaderGenerator itemTable "pkg")).1 _ rfl, rfl, rfl⟩

/-- C16: when the documentation is absent, or its short and long texts are both empty,
`GoDoc` returns `//` followed by the capitalized name and ` ...`; and the header that
`StartInterface` renders is built with the same `GoDoc`, applied to the table name
followed by `Reader` and the table documentation, as the accessor templates apply it
to the field name and the field documentation. -/
theorem C16_GoDoc_placeholder_and_header (env : Env) (name : String)
    (d : Option Documentation) (t : TableReaderGenerator) (f : Field)
    (tableName enumName : String)
    (hdoc : d = none ∨ d = some ⟨"", ""⟩)
    (hfault : env.templateFault "TableReaderGenerator"
      (startInterfaceText env t.table) = none) :
    GoDoc env name d = "//" ++ Capitalize env name ++ " ..."
    ∧ StartInterface env t
        = ({ t with definitionsBuffer := t.definitionsBuffer
              ++ ("\n" ++ GoDoc env (env.TableName t.table ++ "Reader")
                    t.table.Metadata.Documentation
                ++ "\ntype " ++ env.TableName t.table ++ "Reader interface \x7b\n") }, none)
    ∧ stringAccessorText env f = "\n    " ++ GoDoc env f.Name f.Documentation ++ "\n    "
        ++ Capitalize env f.Name ++ "() string\n"
    ∧ vectorStringAccessorText env f = "\n    " ++ GoDoc env f.Name f.Documentation
        ++ "\n    " ++ Capitalize env f.Name ++ "() hybrids.VectorStringReader\n"
    ∧ vectorTableAccessorText env f tableName = "\n    "
        ++ GoDoc env f.Name f.Documentation ++ "\n    " ++ Capitalize env f.Name ++ "() "
        ++ ("Vector" ++ tableName) ++ "Reader\n"
    ∧ tableAccessorText env f tableName = "\n    " ++ GoDoc env f.Name f.Documentation
        ++ "\n    " ++ Capitalize env f.Name ++ "() (" ++ tableName ++ "Reader, error)\n"
    ∧ enumerationAccessorText env f enumName = "\n    "
        ++ GoDoc env f.Name f.Documentation ++ "\n    " ++ Capitalize env f.Name ++ "() "
        ++ enumName ++ "\n" := by
  refine ⟨?_, ?_, rfl, rfl, rfl, rfl, rfl⟩
  · rcases hdoc with h | h
    · rw [h]; rfl
    · rw [h]
      simp [GoDoc, Capitalize]
  · unfold StartInterface
    rw [Execute_of_no_fault hfault]
    rfl

/-- C16 (witness): the header of the table `Item`, which has no documentation. -/
theorem C16_GoDoc_placeholder_and_header_witness :
    GoDoc storeEnv "sku" (some ⟨"", ""⟩) = "//" ++ Capitalize storeEnv "sku" ++ " ..."
    ∧ GoDoc storeEnv "sku" (some ⟨"", ""⟩) = "//Sku ..."
    ∧ (StartInterface storeEnv (NewTableReaderGenerator itemTable "pkg")).1.definitionsBuffer
      = "\n//ItemReader ...\ntype ItemReader interface \x7b\n" :=
  have h := C16_GoDoc_placeholder_and_header storeEnv "sku" (some ⟨"", ""⟩)
    (NewTableReaderGenerator itemTable "pkg") ⟨"SKU", "String", "", none⟩ "Color" "Shade"
    (Or.inr rfl) rfl
  ⟨h.1, rfl, rfl⟩

/-- C17: when short and long text are both non-empty, `GoDoc` returns the capitalized
name, a space, the short text, a line break and the long text, in that order; when
exactly one of them is non-empty, it returns `utils.CommentGolang` of the capitalized
name, a space and that one text. -/
theorem C17_GoDoc_with_texts (env : Env) (name : String) (d : Documentation) :
    (d.Short ≠ "" → d.Long ≠ "" →
      GoDoc env name (some d) = Capitalize env name ++ " " ++ d.Short ++ "\n" ++ d.Long)
    ∧ (d.Short ≠ "" → d.Long = "" →
      GoDoc env name (some d) = env.CommentGolang (Capitalize env name ++ " " ++ d.Short))
    ∧ (d.Short = "" → d.Long ≠ "" →
      GoDoc env name (some d) = env.CommentGolang (Capitalize env name ++ " " ++ d.Long)) := by
  refine ⟨?_, ?_, ?_⟩
  · intro hs hl
    simp [GoDoc, Capitalize, hs, hl]
  · intro hs hl
    simp [GoDoc, Capitalize, hs, hl]
  · intro hs hl
    simp [GoDoc, Capitalize, hs, hl]

/-- C17 (witness): the name `sku` with both texts, with the short text only and with
the long text only, under `storeEnv`, whose `CommentGolang` puts `//` in front. -/
theorem C17_GoDoc_with_texts_witness :
    GoDoc storeEnv "sku" (some ⟨"stock unit", "The unit held in stock."⟩)
      = Capitalize storeEnv "sku" ++ " " ++ "stock unit" ++ "\n" ++ "The unit held in stock."
    ∧ GoDoc storeEnv "sku" (some ⟨"stock unit", ""⟩)
      = storeEnv.CommentGolang (Capitalize storeEnv "sku" ++ " " ++ "stock unit")
    ∧ GoDoc storeEnv "sku" (some ⟨"", "The unit held in stock."⟩)
      = storeEnv.CommentGolang
          (Capitalize storeEnv "sku" ++ " " ++ "The unit held in stock.")
    ∧ GoDoc storeEnv "sku" (some ⟨"stock unit", ""⟩) = "//Sku stock unit" :=
  ⟨(C17_GoDoc_with_texts storeEnv "sku" ⟨"stock unit", "The unit held in stock."⟩).1
      (by decide) (by decide),
    (C17_GoDoc_with_texts storeEnv "sku" ⟨"stock unit", ""⟩).2.1 (by decide) rfl,
    (C17_GoDoc_with_texts storeEnv "sku" ⟨"", "The unit held in stock."⟩).2.2 rfl
      (by decide),
    rfl⟩

/-- C18: when `Generate` succeeds on a fresh generator, the definitions region of the
output is the header of the interface named `TableName` followed by `Reader`, with the
`GoDoc` comment of that name in front, then the accessor texts of the fields and
nothing else, then the closing brace; for a table without fields it is the header
followed by the closing brace. -/
theorem C18_primary_interface_is_delimited (env : Env) (tbl : Table) (ip : String)
    (wr wr' : Writer) (t' : TableReaderGenerator)
    (h : Generate env (NewTableReaderGenerator tbl ip) wr = ((t', wr'), none)) :
    startInterfaceText env tbl
        = "\n" ++ GoDoc env (env.TableName tbl ++ "Reader") tbl.Metadata.Documentation
          ++ "\ntype " ++ env.TableName tbl ++ "Reader interface \x7b\n"
    ∧ (assemble env (NewTableReaderGenerator tbl ip)).1.definitionsBuffer
        = startInterfaceText env tbl
          ++ joinTexts (tbl.Fields.map (accessorText env tbl.Metadata.Application))
          ++ "\n\x7d\n"
    ∧ wr'.written = wr.written
        ++ env.importsText (assemble env (NewTableReaderGenerator tbl ip)).1.imports
        ++ (startInterfaceText env tbl
          ++ joinTexts (tbl.Fields.map (accessorText env tbl.Metadata.Application))
          ++ "\n\x7d\n")
        ++ createVectorText (env.TableName tbl)
    ∧ (tbl.Fields = [] →
        (assemble env (NewTableReaderGenerator tbl ip)).1.definitionsBuffer
          = startInterfaceText env tbl ++ "\n\x7d\n") := by
  obtain ⟨t4, ha, hflush⟩ := Generate_ok env _ _ _ _ h
  have hdefs := assemble_ok_texts env _ _ ha
  obtain ⟨_, _, _, _, _, _, hfun, _⟩ := assemble_ok env _ _ ha
  have hd : (NewTableReaderGenerator tbl ip).definitionsBuffer = "" := rfl
  have hf : (NewTableReaderGenerator tbl ip).functionsBuffer = "" := rfl
  have htbl : (NewTableReaderGenerator tbl ip).table = tbl := rfl
  rw [hd, htbl, String.empty_append] at hdefs
  rw [hf, htbl, String.empty_append] at hfun
  obtain ⟨hw, _, _, _⟩ := FlushBuffers_ok env _ _ _ _ hflush
  rw [ha]
  refine ⟨rfl, hdefs, ?_, ?_⟩
  · rw [hw, hdefs, hfun]
  · intro hnil
    simp only
    rw [hdefs, hnil]
    simp [joinTexts]

/-- C18 (witness): the table `Item` without fields and the table `Item` with its two
fields, written to a sink that accepts everything. -/
theorem C18_primary_interface_is_delimited_witness :
    (Generate storeEnv (NewTableReaderGenerator ⟨⟨"Item", "store", none⟩, []⟩ "pkg")
        openSink).2 = none
    ∧ (assemble storeEnv
        (NewTableReaderGenerator ⟨⟨"Item", "store", none⟩, []⟩ "pkg")).1.definitionsBuffer
      = startInterfaceText storeEnv ⟨⟨"Item", "store", none⟩, []⟩ ++ "\n\x7d\n"
    ∧ (assemble storeEnv
        (NewTableReaderGenerator ⟨⟨"Item", "store", none⟩, []⟩ "pkg")).1.definitionsBuffer
      = "\n//ItemReader ...\ntype ItemReader interface \x7b\n\n\x7d\n"
    ∧ (assemble storeEnv (NewTableReaderGenerator itemTable "pkg")).1.definitionsBuffer
      = startInterfaceText storeEnv itemTable
        ++ joinTexts (itemTable.Fields.map (accessorText storeEnv "store")) ++ "\n\x7d\n" :=
  ⟨rfl,
    (C18_primary_interface_is_delimited storeEnv ⟨⟨"Item", "store", none⟩, []⟩ "pkg"
      openSink _ _ rfl).2.2.2 rfl,
    rfl,
    (C18_primary_interface_is_delimited storeEnv itemTable "pkg" openSink _ _ rfl).2.1⟩

/-- C19: when `Generate` succeeds on a fresh generator with a sink that accepts every
write, the generator is left with both buffers empty and with the import set of the
pass, and a second `Generate` on that same generator succeeds too and appends to the
sink exactly the text that the first one appended. -/
theorem C19_second_pass_writes_the_same (env : Env) (tbl : Table) (ip : String)
    (w : String) (t1 : TableReaderGenerator) (w1 : Writer)
    (h : Generate env (NewTableReaderGenerator tbl ip) ⟨w, none⟩ = ((t1, w1), none)) :
    t1.definitionsBuffer = ""
    ∧ t1.functionsBuffer = ""
    ∧ t1.imports = (assemble env (NewTableReaderGenerator tbl ip)).1.imports
    ∧ ∃ out, w1 = ⟨w ++ out, none⟩
        ∧ Generate env t1 w1 = ((t1, ⟨w ++ out ++ out, none⟩), none) := by
  obtain ⟨t4, ha, hflush⟩ := Generate_ok env _ _ _ _ h
  rw [FlushBuffers_open] at hflush
  simp only [Prod.mk.injEq, and_true] at hflush
  obtain ⟨ht1, hw1⟩ := hflush
  have hcl := assemble_cleared env (NewTableReaderGenerator tbl ip)
  rw [ha] at hcl
  simp only at hcl
  have hstate : t1 = withImports (NewTableReaderGenerator tbl ip) t4.imports := by
    rw [← ht1]
    have h1 : ({ t4 with definitionsBuffer := "", functionsBuffer := "" } :
        TableReaderGenerator) = withImports (cleared t4) t4.imports := rfl
    rw [h1, hcl]
    rfl
  have hagain := assemble_again env (NewTableReaderGenerator tbl ip) t4 ha
  rw [← hstate] at hagain
  rw [ha]
  refine ⟨by rw [← ht1], by rw [← ht1], by rw [← ht1], ?_⟩
  refine ⟨env.importsText t4.imports ++ t4.definitionsBuffer ++ t4.functionsBuffer, ?_, ?_⟩
  · rw [← hw1]
    simp [String.append_assoc]
  · rw [Generate_eq_assemble, hagain, ← hw1]
    simp only
    rw [FlushBuffers_open, ht1]
    simp [String.append_assoc]

/-- C19 (witness): two passes for the table `danglingTableWithout`, which imports the
shared vector module, on one generator and one sink. -/
theorem C19_second_pass_writes_the_same_witness :
    (Generate storeEnv (NewTableReaderGenerator danglingTableWithout "pkg")
        ⟨"", none⟩).2 = none
    ∧ (Generate storeEnv (NewTableReaderGenerator danglingTableWithout "pkg")
        ⟨"", none⟩).1.1.imports = ["github.com/nebtex/hybrids/golang/hybrids"]
    ∧ (Generate storeEnv (NewTableReaderGenerator danglingTableWithout "pkg")
        ⟨"", none⟩).1.1.definitionsBuffer = ""
    ∧ ∃ out,
        (Generate storeEnv (NewTableReaderGenerator danglingTableWithout "pkg")
          ⟨"", none⟩).1.2 = ⟨"" ++ out, none⟩
        ∧ Generate storeEnv
            (Generate storeEnv (NewTableReaderGenerator danglingTableWithout "pkg")
              ⟨"", none⟩).1.1
            (Generate storeEnv (NewTableReaderGenerator danglingTableWithout "pkg")
              ⟨"", none⟩).1.2
          = (((Generate storeEnv (NewTableReaderGenerator danglingTableWithout "pkg")
              ⟨"", none⟩).1.1, ⟨"" ++ out ++ out, none⟩), none) :=
  have h := C19_second_pass_writes_the_same storeEnv danglingTableWithout "pkg" ""
    _ _ rfl
  ⟨rfl, rfl, h.1, h.2.2.2⟩

end InterfaceGenerator
